import Mathlib

/-!
Verification development for the gotulua dynamic-schema data-access engine.

The Go sources are shallowly embedded: pure string manipulation is
translated to executable functions over `List Char` / `String`, the
cursor-based Rowset protocol of `gormfunc.Table` becomes explicit state
passing over a `Rowset` structure, database round trips are abstracted as
parameters (fetched records, per-statement failure oracles), and fallible
Go functions returning `(T, error)` become `Except`/`Option` values.
-/

deriving instance DecidableEq for Except

namespace Gotulua

/-! ## String utilities

Lean's built-in `String` functions are not used because the embedding
needs definitions the kernel can evaluate; the Go `strings` operations
used by the sources are re-implemented over `List Char`, with structural
(fuel-based where needed) recursion so they reduce under `decide`. -/

/-- Fuel-driven digit emission; the base case only fires for `n = 0`,
where it agrees with the small-number branch. -/
def natDigitsF : Nat → Nat → List Char
  | 0, n => [Nat.digitChar n]
  | f + 1, n =>
    if n < 10 then [Nat.digitChar n]
    else natDigitsF f (n / 10) ++ [Nat.digitChar (n % 10)]

/-- Decimal digits of a natural number, most significant first
(the digit-emitting core of Go's `appendInt`). -/
def natDigits (n : Nat) : List Char := natDigitsF n n

/-- Go's `appendInt(b, n, w)`: decimal digits of `n` left-padded with zeros
to width `w` (longer numbers keep all their digits). -/
def padInt (n w : Nat) : List Char :=
  let ds := natDigits n
  List.replicate (w - ds.length) '0' ++ ds

/-- Go's `strings.HasPrefix` over char lists. -/
def strStarts : List Char → List Char → Bool
  | _, [] => true
  | [], _ :: _ => false
  | c :: cs, p :: ps => c = p && strStarts cs ps

/-- Go's `strings.Contains` over char lists: `pat` occurs as a substring. -/
def containsSub (s pat : List Char) : Bool :=
  match s with
  | [] => strStarts [] pat
  | _ :: cs => strStarts s pat || containsSub cs pat

/-- Go's `strings.Replace(s, pat, rep, 1)`: replace the first occurrence of
`pat` (nonempty) in `s` by `rep`. -/
def replFirst (pat rep : List Char) : List Char → List Char
  | [] => []
  | c :: cs =>
    if pat ≠ [] ∧ strStarts (c :: cs) pat then rep ++ (c :: cs).drop pat.length
    else c :: replFirst pat rep cs

/-- String wrapper for `replFirst`. -/
def strReplaceOne (s pat rep : String) : String :=
  ⟨replFirst pat.data rep.data s.data⟩

/-- Go's `strings.TrimSpace` (ASCII whitespace, which is all the engine
ever feeds it). -/
def trimSp (s : List Char) : List Char :=
  ((s.dropWhile Char.isWhitespace).reverse.dropWhile Char.isWhitespace).reverse

/-- Fuel-driven worker for `splitOnL`; each step consumes at least one
character, so fuel `s.length` always suffices. -/
def splitOnLF (sep : List Char) : Nat → List Char → List (List Char)
  | _, [] => [[]]
  | 0, s => [s]
  | f + 1, c :: cs =>
    if sep ≠ [] ∧ strStarts (c :: cs) sep then
      -- consuming the whole separator: `(c :: cs).drop sep.length` with `sep ≠ []`
      [] :: splitOnLF sep f (cs.drop (sep.length - 1))
    else
      match splitOnLF sep f cs with
      | [] => [[c]]
      | p :: ps => (c :: p) :: ps

/-- Go's `strings.Split(s, sep)` for a nonempty separator, over char lists. -/
def splitOnL (sep s : List Char) : List (List Char) := splitOnLF sep s.length s

/-- Byte-wise (memcmp-style) strict order on ASCII char lists; this is how
SQLite compares TEXT values. -/
def memLt : List Char → List Char → Bool
  | [], [] => false
  | [], _ :: _ => true
  | _ :: _, [] => false
  | a :: as, b :: bs => if a < b then true else if b < a then false else memLt as bs

/-! ## typesfunc constants

Modelled from the spec: the `typesfunc` package itself is not among the
provided sources; its constants are declared (commented out, with their
values) at the top of `gormfunc/sqlite.go` and match the spec's logical
type names. Only their distinctness matters to any claim. -/

def TypeDate : String := "DATE"

def TypeTime : String := "TIME"

def TypeDateTime : String := "DATETIME"

def TypeBoolean : String := "BOOLEAN"

def TypeInteger : String := "INTEGER"

def TypeReal : String := "REAL"

def TypeText : String := "TEXT"

/-! ## boolfunc -/

namespace Boolfunc

def ToInternalFormat : Nat := 0

def ToUserFormat : Nat := 1

def trueInDB : String := "1"

def falseInDB : String := "0"

/-- Embedding of `boolfunc.FormatBool`. Go's `strings.ToUpper`/`ToLower`
become `Char.toUpper`/`Char.toLower` mapped over the characters. -/
def FormatBool (inp : String) (direction : Nat) : Except Unit String :=
  if direction = ToInternalFormat then
    if inp.data.map Char.toUpper = ['1'] ∨ inp.data.map Char.toUpper = ['0'] then
      .ok ⟨inp.data.map Char.toUpper⟩
    else if inp.data.map Char.toLower = "true".data ∨ inp.data.map Char.toLower = ['1'] then
      .ok trueInDB
    else .ok falseInDB
  else if direction = ToUserFormat then
    if inp = trueInDB then .ok "true" else .ok "false"
  else .error ()

end Boolfunc

/-! ## syncfunc and the after-update hook dispatch (`runOnAfterUpdate`) -/

namespace Hooks

/-- Process-wide state observed by the after-update dispatch: the
`syncfunc.afterUpdateRunning` flag, plus event counters (number of UPDATE
statements executed, number of times a hook body was invoked) that let the
theorems talk about "executes exactly once". -/
structure HookState where
  flag : Bool
  dbUpdates : Nat
  hookRuns : Nat
deriving DecidableEq, Repr

/-- Embedding of `Table.runOnAfterUpdate`: if `syncfunc.GetAfterUpdateRunning()`
the dispatch returns at once; otherwise the flag is set, the registered hook
body runs, and the deferred `syncfunc.SetAfterUpdateRunning(false)` clears the
flag when the dispatch returns. -/
def runOnAfterUpdate (body : HookState → HookState) (s : HookState) : HookState :=
  if s.flag then s
  else
    let s1 : HookState := { s with flag := true, hookRuns := s.hookRuns + 1 }
    let s2 := body s1
    { s2 with flag := false }

/-- Embedding of `Table.Update` restricted to the state the reentrancy claim
is about: each call executes one UPDATE statement and, when an after-update
hook is registered, dispatches it through `runOnAfterUpdate`; the registered
hook body itself calls `Update` on the same record. `fuel` bounds the call
depth (the Go recursion is cut by the flag, and the theorems show the result
is the same for every sufficient fuel). -/
def updateWithHook (hookSet : Bool) : Nat → HookState → HookState
  | 0, s => s
  | fuel + 1, s =>
    let s1 : HookState := { s with dbUpdates := s.dbUpdates + 1 }
    if hookSet then runOnAfterUpdate (updateWithHook hookSet fuel) s1 else s1

end Hooks

/-! ## Record, Rowset and the Table cursor protocol -/

/-- Dynamically typed scalar stored in a record field; `nilV` is Go's nil
interface value (absent map key). -/
inductive Val where
  | intV : Int → Val
  | strV : String → Val
  | nilV : Val
deriving DecidableEq, Repr

/-- Embedding of `gormfunc.Record` (`map[string]interface{}`) as an
association list; `get` is map lookup, yielding `nilV` for a missing key. -/
def Record := List (String × Val)
deriving DecidableEq, Repr

def Record.get (r : Record) (k : String) : Val :=
  match List.find? (fun p => p.1 = k) r with
  | some p => p.2
  | none => .nilV

/-- Embedding of `gormfunc.Rowset`: rows plus cursor. `pos` is an `Int`
because the Go field is a signed `int` and `Prev`/`DeleteRow` compare it
against 0 after decrementing. -/
structure Rowset where
  rows : List Record
  pos : Int
deriving DecidableEq, Repr

def PrimaryKeyField : String := "id"

def SysMetaTable : String := "table_metadata"

/-- Which database action `Table.SaveField` performs: nothing (returns
false), a single-field INSERT, or a single-field UPDATE keyed by the
primary key found at the cursor. -/
inductive SFAction where
  | noAction
  | insertNew
  | updateRow (id : Val)
deriving DecidableEq, Repr

/-- Embedding of the branch structure of `Table.SaveField`: the guard
`t.Rows == nil || len(t.Rows.Rows) == 0` returns false; the condition
`t.Rows.Pos >= len(t.Rows.Rows) || (len == 1 && Rows[0]["id"] == 0)`
selects the single-field insert; otherwise the row at the cursor is
updated using its `id`. -/
def saveFieldAction (rs? : Option Rowset) : SFAction :=
  match rs? with
  | none => .noAction
  | some rs =>
    if rs.rows.length = 0 then .noAction
    else if rs.pos ≥ (rs.rows.length : Int) ∨
        (rs.rows.length = 1 ∧ (rs.rows.headD []).get PrimaryKeyField = .intV 0) then
      .insertNew
    else
      .updateRow ((rs.rows.getD rs.pos.toNat []).get PrimaryKeyField)

/-- Embedding of `Table.DeleteRow`. `deleteOk` abstracts the DELETE
statement round trip (`Table.delete`). On success the row at the cursor is
removed: a single-row Rowset becomes empty with the cursor at 0, otherwise
the cursor moves back one step, clamped to 0. -/
def deleteRow (deleteOk : Bool) (rs? : Option Rowset) : Option Rowset × Bool :=
  match rs? with
  | none => (none, false)
  | some rs =>
    if rs.pos < 0 ∨ rs.pos ≥ (rs.rows.length : Int) then (some rs, false)
    else if ¬ deleteOk then (some rs, false)
    else if rs.rows.length = 1 then (some ⟨[], 0⟩, true)
    else
      let rows' := rs.rows.eraseIdx rs.pos.toNat
      let p := rs.pos - 1
      (some ⟨rows', if p < 0 then 0 else p⟩, true)

/-- First index whose record has primary key `id` (the linear scan in
`Table.FindByID`). -/
def findRowIdx (id : Val) : List Record → Option Nat
  | [] => none
  | r :: rest =>
    if r.get PrimaryKeyField = id then some 0
    else (findRowIdx id rest).map (· + 1)

/-- Embedding of `Table.FindByID`. `fetched` abstracts the single-row
SELECT by primary key (`none` covers every failed-fetch branch: query
error, empty result, missing primary key). With no Rowset a one-row Rowset
is created; with an existing Rowset the first row whose `id` matches is
replaced in place and the cursor moved to it; if no row matches, the whole
Rowset is replaced by a fresh one-row Rowset at cursor 0. -/
def findByID (id : Val) (fetched : Option Record) (rs? : Option Rowset) :
    Option Rowset × Bool :=
  match fetched with
  | none => (rs?, false)
  | some result =>
    match rs? with
    | none => (some ⟨[result], 0⟩, true)
    | some rs =>
      match findRowIdx id rs.rows with
      | some i => (some ⟨rs.rows.set i result, (i : Int)⟩, true)
      | none => (some ⟨[result], 0⟩, true)

/-- Embedding of `Table.Next`. -/
def next (rs : Rowset) : Rowset × Bool :=
  if rs.pos + 1 < (rs.rows.length : Int) then ({ rs with pos := rs.pos + 1 }, true)
  else (rs, false)

/-- Embedding of `Table.Prev`. -/
def prev (rs : Rowset) : Rowset × Bool :=
  if rs.pos - 1 ≥ 0 then ({ rs with pos := rs.pos - 1 }, true)
  else (rs, false)

/-- Embedding of the Rowset effect of `Table.Find` given the materialized
query results: the previous Rowset is replaced wholesale and the cursor
reset to 0; the return value is whether any row was found. -/
def findAll (results : List Record) (_rs? : Option Rowset) : Option Rowset × Bool :=
  (some ⟨results, 0⟩, decide (results.length > 0))

/-- State transform of one `Next` call (dropping the Bool). -/
def nextS (rs : Rowset) : Rowset := (next rs).1

/-- Parameters abstracting the database round trips made by `Table.Insert`:
whether every user-format conversion succeeds, whether the INSERT statement
and the `last_insert_rowid()` query succeed, the generated id, and the
re-fetched row (`getRecordById`). -/
structure InsertEnv where
  convOk : Bool
  execOk : Bool
  lastIdOk : Bool
  lastId : Int
  fetched : Option Record
deriving Repr

/-- Embedding of `Table.Insert`'s control flow and Rowset maintenance.
The outer `Option` is the process: `none` means the Go code dereferences a
nil pointer (it reads `t.Rows.Rows` with `t.Rows == nil`) and panics;
`some (rows', ok, id)` is a normal return. On the success path the code
unconditionally inspects `t.Rows.Rows`: a trailing new-row placeholder
(primary key 0) is replaced by the re-fetched record, otherwise the record
is appended and the cursor moved to it (only the append branch moves the
cursor). -/
def insert (env : InsertEnv) (rs? : Option Rowset) :
    Option (Option Rowset × Bool × Int) :=
  if ¬ env.convOk then some (rs?, false, 0)
  else if ¬ env.execOk then some (rs?, false, 0)
  else if ¬ env.lastIdOk then some (rs?, false, 0)
  else
    match env.fetched with
    | none => some (rs?, false, 0)
    | some r =>
      match rs? with
      | none => none
      | some rs =>
        let n := rs.rows.length
        if n > 0 ∧ (rs.rows.getLastD []).get PrimaryKeyField = .intV 0 then
          some (some ⟨rs.rows.dropLast ++ [r], rs.pos⟩, true, env.lastId)
        else
          some (some ⟨rs.rows ++ [r], ((rs.rows.length + 1 : Nat) : Int) - 1⟩, true, env.lastId)

/-! ## timefunc: display templates, validation, canonical conversion -/

namespace Timefunc

def ToInternalFormat : Nat := 0

def ToUserFormat : Nat := 1

def InternalDateTimeFormat : String := "yyyymmddhhiiss"

def InternalDateFormat : String := "yyyymmdd"

def InternalTimeFormat : String := "hhiiss"

/-- The process-wide display templates (`timefunc.DateFormat` etc.),
threaded explicitly; `defaultFmts` is their initial value in the source. -/
structure Fmts where
  dateFormat : String
  timeFormat : String
  dateTimeFormat : String
deriving Repr

def defaultFmts : Fmts := ⟨"dd.mm.yyyy", "hh:ii:ss", "dd.mm.yyyy hh:ii:ss"⟩

/-- Go's `strings.Contains` on strings. -/
def contStr (s pat : String) : Bool := containsSub s.data pat.data

/-- Error identities produced by `checkIfDTFormatIsValid`
(the i18n message keys, as tags). -/
inductive DTErr where
  | emptyFmt | yearMissing | yearLength | monthMissing | monthDup | monthLength
  | dayMissing | dayLength | hourMissing | hourLength | minMissing | minLength
  | secMissing | secLength
deriving DecidableEq, Repr

/-- Embedding of `timefunc.checkIfDTFormatIsValid`, preserving each
`strings.Contains` condition exactly as written (including the negated
token-length conditions such as `!strings.Contains(df, "yyyyy")` and the
`yyy` token in the hour-length check); the returned list is empty exactly
when the Go `errors.Join` result is nil. -/
def checkIfDTFormatIsValid (df dtType : String) : List DTErr :=
  if df = "" then [.emptyFmt]
  else
    (if dtType = TypeDate ∨ dtType = TypeDateTime then
      (if ¬ contStr df "yy" then [DTErr.yearMissing] else []) ++
      (if ¬ contStr df "yyyyy" then [DTErr.yearLength] else []) ++
      (if ¬ contStr df "mm" ∧ ¬ contStr df "MM" then [DTErr.monthMissing] else []) ++
      (if contStr df "mm" ∧ contStr df "MM" then [DTErr.monthDup] else []) ++
      (if contStr df "mmm" ∨ contStr df "MMM" then [DTErr.monthLength] else []) ++
      (if ¬ contStr df "dd" then [DTErr.dayMissing] else []) ++
      (if ¬ contStr df "ddd" then [DTErr.dayLength] else [])
    else []) ++
    (if dtType = TypeTime ∨ dtType = TypeDateTime then
      (if ¬ contStr df "hh" then [DTErr.hourMissing] else []) ++
      (if ¬ contStr df "yyy" then [DTErr.hourLength] else []) ++
      (if ¬ contStr df "ii" then [DTErr.minMissing] else []) ++
      (if contStr df "iii" then [DTErr.minLength] else []) ++
      (if ¬ contStr df "ss" then [DTErr.secMissing] else []) ++
      (if ¬ contStr df "sss" then [DTErr.secLength] else [])
    else [])

/-- Embedding of `timefunc.SetDateFormat`: on a non-nil validation error it
throws (modelled as `.error`), otherwise it installs the template. -/
def SetDateFormat (df : String) : Except (List DTErr) Unit :=
  match checkIfDTFormatIsValid df TypeDate with
  | [] => .ok ()
  | es => .error es

/-- Embedding of `timefunc.SetTimeFormat`. -/
def SetTimeFormat (tf : String) : Except (List DTErr) Unit :=
  match checkIfDTFormatIsValid tf TypeTime with
  | [] => .ok ()
  | es => .error es

/-- Embedding of `timefunc.SetDateTimeFormat`. -/
def SetDateTimeFormat (dtf : String) : Except (List DTErr) Unit :=
  match checkIfDTFormatIsValid dtf TypeDateTime with
  | [] => .ok ()
  | es => .error es

/-- Characters admitted by `dtAllowedSymbRegexp` = `^[ymdhis./: -]+$`. -/
def allowedDTChar (c : Char) : Bool :=
  c = 'y' ∨ c = 'm' ∨ c = 'd' ∨ c = 'h' ∨ c = 'i' ∨ c = 's' ∨
  c = '.' ∨ c = '/' ∨ c = ':' ∨ c = ' ' ∨ c = '-'

/-- Embedding of `timefunc.checkNoExtraSymbolsInTemplate` (the regexp
requires at least one character, all from the allowed set). -/
def checkNoExtraSymbolsInTemplate (tpl : String) : Bool :=
  decide (tpl.data ≠ []) && tpl.data.all allowedDTChar

/-- Date-token replacement chain of `customTemplateToGoTemplate`
(the `gdt` section). Returns the rewritten template and whether any of
the three `gdt == t` comparisons against the section's input `t` fired
(an error was recorded). -/
def ctgtDate (t : String) : String × Bool :=
  let gdt0 := strReplaceOne t "yyyy" "2006"
  let gdt1 := if gdt0 = t then strReplaceOne gdt0 "yy" "06" else gdt0
  let e1 := gdt1 = t
  let gdt2 := strReplaceOne gdt1 "mm" "01"
  let e2 := gdt2 = t
  let gdt3 := strReplaceOne gdt2 "dd" "02"
  let e3 := gdt3 = t
  (gdt3, e1 ∨ e2 ∨ e3)

/-- Time-token replacement chain of `customTemplateToGoTemplate`
(the `gtt` section). -/
def ctgtTime (t : String) : String × Bool :=
  let g1 := strReplaceOne t "hh" "15"
  let e1 := g1 = t
  let g2 := strReplaceOne g1 "ii" "04"
  let e2 := g2 = t
  let g3 := strReplaceOne g2 "ss" "05"
  let e3 := g3 = t
  (g3, e1 ∨ e2 ∨ e3)

/-- Embedding of `timefunc.customTemplateToGoTemplate`: translates a custom
template into a Go `time` layout by the source's sequence of first-occurrence
replacements. A Date error aborts only in Date mode; in DateTime mode the
date section's output feeds the time section and errors from both join. -/
def customTemplateToGoTemplate (ct mode : String) : Except Unit String :=
  if ¬ (mode = TypeDate ∨ mode = TypeTime ∨ mode = TypeDateTime) then .error ()
  else if ¬ checkNoExtraSymbolsInTemplate ct then .error ()
  else if mode = TypeDate then
    match ctgtDate ct with
    | (gdt, e) => if e then .error () else .ok gdt
  else if mode = TypeDateTime then
    match ctgtDate ct with
    | (gdt, e1) =>
      match ctgtTime gdt with
      | (gtt, e2) => if e1 ∨ e2 then .error () else .ok gtt
  else
    match ctgtTime ct with
    | (gtt, e) => if e then .error () else .ok gtt

/-- Embedding of `timefunc.TemplateToRegexp` (first-occurrence replacement
of each token by a digit pattern). -/
def TemplateToRegexp (tpl : String) : String :=
  let t := strReplaceOne tpl "dd" "\\d\\d"
  let t1 := t
  let t2 := strReplaceOne t "yyyy" "\\d\\d\\d\\d"
  let t3 := if t2 = t1 then strReplaceOne t2 "yy" "\\d\\d" else t2
  let t4 := strReplaceOne t3 "mm" "\\d\\d"
  let t5 := strReplaceOne t4 "hh" "\\d\\d"
  let t6 := strReplaceOne t5 "ii" "\\d\\d"
  strReplaceOne t6 "ss" "\\d\\d"

/-! ### Go `time` layouts

The layouts produced by `customTemplateToGoTemplate` consist of the
numeric reference tokens `2006`, `06`, `01`, `02`, `15`, `04`, `05` and
literal separator characters; `time.Parse` and `Time.Format` on such
layouts are embedded below. -/

/-- One layout token of a Go `time` layout string. -/
inductive GoTok where
  | y4 | y2 | mo2 | d2 | h2 | mi2 | s2
  | lit : Char → GoTok
deriving DecidableEq, Repr

/-- Scanner for Go layout strings restricted to the reference tokens that
`customTemplateToGoTemplate` can emit (Go's `nextStdChunk` on them). -/
def layoutToks : List Char → List GoTok
  | '2' :: '0' :: '0' :: '6' :: r => .y4 :: layoutToks r
  | '0' :: '1' :: r => .mo2 :: layoutToks r
  | '0' :: '2' :: r => .d2 :: layoutToks r
  | '0' :: '4' :: r => .mi2 :: layoutToks r
  | '0' :: '5' :: r => .s2 :: layoutToks r
  | '0' :: '6' :: r => .y2 :: layoutToks r
  | '1' :: '5' :: r => .h2 :: layoutToks r
  | c :: r => .lit c :: layoutToks r
  | [] => []

/-- The broken-down time produced by `time.Parse` (only the six fields the
engine's layouts can mention). -/
structure DTime where
  year : Nat
  month : Nat
  day : Nat
  hour : Nat
  minute : Nat
  second : Nat
deriving DecidableEq, Repr

/-- Go's parse defaults: January 1, year 0, midnight. -/
def dtZero : DTime := ⟨0, 1, 1, 0, 0, 0⟩

/-- Numeric value of an ASCII digit character. -/
def digi (c : Char) : Nat := c.toNat - 48

/-- Fixed-width two-digit field parse (Go's `getnum` with `fixed`). -/
def parse2 : List Char → Option (Nat × List Char)
  | c1 :: c2 :: r =>
    if c1.isDigit && c2.isDigit then some (10 * digi c1 + digi c2, r) else none
  | _ => none

/-- Fixed-width four-digit field parse (Go's `stdLongYear`). -/
def parse4 : List Char → Option (Nat × List Char)
  | c1 :: c2 :: c3 :: c4 :: r =>
    if c1.isDigit && c2.isDigit && c3.isDigit && c4.isDigit then
      some (1000 * digi c1 + 100 * digi c2 + 10 * digi c3 + digi c4, r)
    else none
  | _ => none

/-- Token-directed parse of an input against a layout; the two-digit year
applies Go's century rule (`year >= 69` → 1900s, else 2000s). -/
def parseToks : List GoTok → DTime → List Char → Option (DTime × List Char)
  | [], acc, rest => some (acc, rest)
  | .y4 :: tl, acc, cs =>
    match parse4 cs with
    | some (n, r) => parseToks tl { acc with year := n } r
    | none => none
  | .y2 :: tl, acc, cs =>
    match parse2 cs with
    | some (n, r) => parseToks tl { acc with year := if n ≥ 69 then 1900 + n else 2000 + n } r
    | none => none
  | .mo2 :: tl, acc, cs =>
    match parse2 cs with
    | some (n, r) => parseToks tl { acc with month := n } r
    | none => none
  | .d2 :: tl, acc, cs =>
    match parse2 cs with
    | some (n, r) => parseToks tl { acc with day := n } r
    | none => none
  | .h2 :: tl, acc, cs =>
    match parse2 cs with
    | some (n, r) => parseToks tl { acc with hour := n } r
    | none => none
  | .mi2 :: tl, acc, cs =>
    match parse2 cs with
    | some (n, r) => parseToks tl { acc with minute := n } r
    | none => none
  | .s2 :: tl, acc, cs =>
    match parse2 cs with
    | some (n, r) => parseToks tl { acc with second := n } r
    | none => none
  | .lit c :: tl, acc, cs =>
    match cs with
    | c' :: r => if c = c' then parseToks tl acc r else none
    | [] => none

/-- The Gregorian leap-year rule used by Go's `isLeap`. -/
def isLeap (y : Nat) : Bool := (y % 4 = 0 && y % 100 ≠ 0) || (y % 400 = 0)

/-- Days in a month (Go's `daysIn`). -/
def daysIn (y mo : Nat) : Nat :=
  if mo = 2 then (if isLeap y then 29 else 28)
  else if mo = 4 ∨ mo = 6 ∨ mo = 9 ∨ mo = 11 then 30
  else 31

/-- The range checks `time.Parse` applies before constructing the value. -/
def validDT (t : DTime) : Bool :=
  1 ≤ t.month && t.month ≤ 12 && 1 ≤ t.day && t.day ≤ daysIn t.year t.month &&
  t.hour ≤ 23 && t.minute ≤ 59 && t.second ≤ 59

/-- Embedding of `time.Parse(layout, value)` on the engine's layouts:
the whole input must be consumed and the fields must be in range. -/
def goTimeParse (layout value : String) : Option DTime :=
  match parseToks (layoutToks layout.data) dtZero value.data with
  | some (t, []) => if validDT t then some t else none
  | _ => none

/-- Rendering of one layout token by `Time.Format`. -/
def fmtTok (t : DTime) : GoTok → List Char
  | .y4 => padInt t.year 4
  | .y2 => padInt (t.year % 100) 2
  | .mo2 => padInt t.month 2
  | .d2 => padInt t.day 2
  | .h2 => padInt t.hour 2
  | .mi2 => padInt t.minute 2
  | .s2 => padInt t.second 2
  | .lit c => [c]

/-- Embedding of `Time.Format(layout)` on the engine's layouts. -/
def goTimeFormat (layout : String) (t : DTime) : String :=
  ⟨((layoutToks layout.data).map (fmtTok t)).flatten⟩

/-- Embedding of `timefunc.FormatDateTime`: pick source and destination
templates by mode and direction, convert both to Go layouts, parse the
input against the source layout and re-render against the destination. -/
def FormatDateTime (F : Fmts) (inp mode : String) (direction : Nat) :
    Except Unit String :=
  if ¬ (mode = TypeDate ∨ mode = TypeTime ∨ mode = TypeDateTime) then .error ()
  else if inp = "" then .ok ""
  else
    let fs : String × String :=
      if mode = TypeDate then
        if direction = ToInternalFormat then (F.dateFormat, InternalDateFormat)
        else (InternalDateFormat, F.dateFormat)
      else if mode = TypeTime then
        if direction = ToInternalFormat then (F.timeFormat, InternalTimeFormat)
        else (InternalTimeFormat, F.timeFormat)
      else
        if direction = ToInternalFormat then (F.dateTimeFormat, InternalDateTimeFormat)
        else (InternalDateTimeFormat, F.dateTimeFormat)
    match customTemplateToGoTemplate fs.1 mode with
    | .error e => .error e
    | .ok gs =>
      match goTimeParse gs inp with
      | none => .error ()
      | some t =>
        match customTemplateToGoTemplate fs.2 mode with
        | .error e => .error e
        | .ok gd => .ok (goTimeFormat gd t)

end Timefunc

/-! ## FilterCompiler: `Table.parseFilterByType` -/

namespace Filter

open Timefunc

/-- The pieces of a filter split at every `&` or `|` (the regexp
`(\&|\|)` split in the source). -/
def filterPieces : List Char → List (List Char)
  | [] => [[]]
  | c :: cs =>
    if c = '&' ∨ c = '|' then [] :: filterPieces cs
    else
      match filterPieces cs with
      | [] => [[c]]
      | p :: ps => (c :: p) :: ps

/-- The delimiters of a filter in order of appearance (the regexp
`FindAllString` in the source). -/
def filterDelims : List Char → List Char
  | [] => []
  | c :: cs => if c = '&' ∨ c = '|' then c :: filterDelims cs else filterDelims cs

/-- The comparison-operator switch of `parseFilterByType`, evaluated in the
source's case order (`==`, `~=`, `>`, `<`, `>=`, `<=`): Go's `switch true`
takes the first matching case, so the `>=` and `<=` cases can never fire
(`>` and `<` match their inputs first); they are kept to mirror the source.
Returns the SQL operator (with surrounding spaces) and the remaining
operand; absence of a comparison rule defaults to equality, or to `LIKE`
for a text value containing a wildcard. -/
def clauseOp (fType : String) (v : List Char) : String × List Char :=
  if strStarts v "==".data then (" = ", trimSp (v.drop 2))
  else if strStarts v "~=".data then (" <> ", trimSp (v.drop 2))
  else if strStarts v ">".data then (" > ", trimSp (v.drop 1))
  else if strStarts v "<".data then (" < ", trimSp (v.drop 1))
  else if strStarts v ">=".data then (" >= ", trimSp (v.drop 2))
  else if strStarts v "<=".data then (" <= ", trimSp (v.drop 2))
  else if fType = TypeText ∧ (v.contains '%' ∨ v.contains '_') then (" LIKE ", v)
  else (" = ", v)

/-- Go's `strings.Trim(v, "'")`. -/
def trimQuote (v : List Char) : List Char :=
  ((v.dropWhile (· = '\'')).reverse.dropWhile (· = '\'')).reverse

/-- Operand rendering of `parseFilterByType`: date/time/datetime operands
run through `FormatDateTime` display→canonical (falling back to the raw
text when conversion fails), booleans through `FormatBool`, numerics pass
unchanged, text is quote-stripped and quoted. -/
def clauseOperand (F : Fmts) (fType : String) (v : List Char) : List Char :=
  if fType = TypeDate ∨ fType = TypeTime ∨ fType = TypeDateTime then
    match FormatDateTime F ⟨v⟩ fType Timefunc.ToInternalFormat with
    | .error _ => '\'' :: v ++ ['\'']
    | .ok d => '\'' :: d.data ++ ['\'']
  else if fType = TypeBoolean then
    match Boolfunc.FormatBool ⟨v⟩ Boolfunc.ToInternalFormat with
    | .error _ => '\'' :: v ++ ['\'']
    | .ok b => '\'' :: b.data ++ ['\'']
  else if fType = TypeInteger ∨ fType = TypeReal then v
  else if fType = TypeText then '\'' :: trimQuote v ++ ['\'']
  else '\'' :: v ++ ['\'']

/-- The clause loop of `parseFilterByType`: piece `i` is trimmed, skipped
if empty, otherwise rendered as `field·op·operand`, followed by ` AND ` /
` OR ` for delimiter `i` when one exists. -/
def buildClauses (F : Fmts) (field fType : String) :
    List (List Char) → List Char → List Char
  | [], _ => []
  | v :: rest, ds =>
    let w := trimSp v
    let cur : List Char :=
      if w.length > 0 then
        let ov := clauseOp fType w
        field.data ++ ov.1.data ++ clauseOperand F fType ov.2 ++
          (match ds with
           | d :: _ => if d = '&' then " AND ".data else if d = '|' then " OR ".data else []
           | [] => [])
      else []
    cur ++ buildClauses F field fType rest (ds.drop 1)

/-- Embedding of `Table.parseFilterByType`. The per-type regexp `r` of the
source is used only for the `''` special case and an emptiness check,
mirrored here; the clause loop does the work. -/
def parseFilterByType (F : Fmts) (field filter fType : String) : String :=
  let core : String :=
    let s := filterPieces filter.data
    let ds := filterDelims filter.data
    if s.length = 0 then "" else ⟨buildClauses F field fType s ds⟩
  if fType = TypeDate then
    if filter = "''" then field ++ " = '' "
    else if TemplateToRegexp F.dateFormat = "" then "" else core
  else if fType = TypeTime then
    if filter = "''" then field ++ " = '' "
    else if TemplateToRegexp F.timeFormat = "" then "" else core
  else if fType = TypeDateTime then
    if filter = "''" then field ++ " = '' "
    else if TemplateToRegexp F.dateTimeFormat = "" then "" else core
  else if fType = TypeBoolean ∨ fType = TypeInteger ∨ fType = TypeReal then core
  else if fType = TypeText then
    if filter = "''" then field ++ " = '' " else core
  else ""

/-- SQLite TEXT comparison semantics for a `field > v` clause over a
stored value `r` (byte-wise order). Used to evaluate which rows a
generated predicate fragment selects. -/
def selGT (r v : String) : Bool := memLt v.data r.data

/-- SQLite TEXT comparison for `field < v`. -/
def selLT (r v : String) : Bool := memLt r.data v.data

/-- SQLite TEXT comparison for `field >= v`. -/
def selGE (r v : String) : Bool := !memLt r.data v.data

/-- SQLite TEXT comparison for `field <= v`. -/
def selLE (r v : String) : Bool := !memLt v.data r.data

end Filter

/-! ## SchemaManager: `AlterTable` and `alterMetadata` -/

namespace Alter

/-- Embedding of the persisted `TableMetadata` row (the `ID` surrogate key
is left to the store). -/
structure MetaRow where
  tableName : String
  fieldName : String
  actualType : String
  logicalType : String
  isNullable : Bool
  defaultValue : String
  temporary : Bool
deriving DecidableEq, Repr

/-- Embedding of `TableMetadataWrapper` (`Drop` marks a metadata delete). -/
structure MetaWrapper where
  meta : MetaRow
  dropFlag : Bool
deriving DecidableEq, Repr

/-- One generated column-DDL statement: `ALTER TABLE name DROP COLUMN f`
or `ALTER TABLE name ADD COLUMN f <type> DEFAULT <zero>`. -/
inductive DDLOp where
  | dropCol : String → DDLOp
  | addCol : String → DDLOp
deriving DecidableEq, Repr

/-- Accumulated `key::value` parameters of one alter-DSL field segment. -/
structure FieldParams where
  dropField : String
  addField : String
  fieldType : String
  fieldLength : String
deriving DecidableEq, Repr

/-- The `params` loop: each `;`-part that splits into exactly two
`::`-separated halves sets the corresponding parameter. -/
def readParams : List (List Char) → FieldParams → FieldParams
  | [], acc => acc
  | part :: rest, acc =>
    let ps := splitOnL "::".data part
    let acc' :=
      if ps.length = 2 then
        let k := ps.headD []
        let v : String := ⟨ps.getD 1 []⟩
        if k = "drop".data then { acc with dropField := v }
        else if k = "add".data then { acc with addField := v }
        else if k = "t".data then { acc with fieldType := v }
        else if k = "l".data then { acc with fieldLength := v }
        else acc
      else acc
    readParams rest acc'

/-- The add-column type switch of `AlterTable`:
(actual type, logical type, default literal); `none` for an unknown type
name (a fatal configuration error aborting the whole call). -/
def addTypeInfo (ft : String) : Option (String × String × String) :=
  if ft = "Text" then some ("TEXT", "", "")
  else if ft = "Integer" then some ("INTEGER", "", "0")
  else if ft = "Float" then some ("REAL", "", "0.0")
  else if ft = "Boolean" then some ("INTEGER", TypeBoolean, "0")
  else if ft = "Date" then some ("TEXT", TypeDate, "")
  else if ft = "Time" then some ("TEXT", TypeTime, "")
  else if ft = "DateTime" then some ("TEXT", TypeDateTime, "")
  else none

/-- Statements and metadata wrappers generated for one field segment
(a segment may carry both a `drop` and an `add`). -/
def fieldOps (name : String) (fp : FieldParams) :
    Option (List DDLOp × List MetaWrapper) :=
  let dPart : List DDLOp × List MetaWrapper :=
    if fp.dropField ≠ "" then
      ([.dropCol fp.dropField], [⟨⟨name, fp.dropField, "", "", false, "", false⟩, true⟩])
    else ([], [])
  if fp.addField ≠ "" then
    match addTypeInfo fp.fieldType with
    | none => none
    | some info =>
      some (dPart.1 ++ [.addCol fp.addField],
        dPart.2 ++ [⟨⟨name, fp.addField, info.1, info.2.1, false, info.2.2, false⟩, false⟩])
  else some dPart

/-- The field loop of `AlterTable` over the `|`-separated segments. -/
def parseFields (name : String) : List (List Char) → Option (List DDLOp × List MetaWrapper)
  | [] => some ([], [])
  | f :: rest =>
    let fp := readParams (splitOnL ";".data f) ⟨"", "", "", ""⟩
    match fieldOps name fp with
    | none => none
    | some ops1 =>
      match parseFields name rest with
      | none => none
      | some ops2 => some (ops1.1 ++ ops2.1, ops1.2 ++ ops2.2)

/-- Parsing of the whole alter DSL string. -/
def parseAlterStructure (name structureStr : String) :
    Option (List DDLOp × List MetaWrapper) :=
  parseFields name (splitOnL "|".data structureStr.data)

/-- The table's DDL (its column list) together with the metadata store. -/
structure DBState where
  cols : List String
  meta : List MetaRow
deriving DecidableEq, Repr

/-- Effect of one column-DDL statement on the table's DDL. -/
def applyDDL (op : DDLOp) (s : DBState) : DBState :=
  match op with
  | .dropCol f => { s with cols := s.cols.erase f }
  | .addCol f => { s with cols := s.cols ++ [f] }

/-- The statement loop inside the transaction: `none` as soon as one
statement fails (`fail` abstracts the storage engine's per-statement
error). -/
def execDDL (fail : DDLOp → Bool) : List DDLOp → DBState → Option DBState
  | [], s => some s
  | op :: tl, s => if fail op then none else execDDL fail tl (applyDDL op s)

/-- The `table_name = ? AND field_name = ?` condition of
`alterMetadata`'s delete. -/
def metaMatches (w : MetaWrapper) (r : MetaRow) : Bool :=
  r.tableName = w.meta.tableName && r.fieldName = w.meta.fieldName

/-- Effect of one wrapper in `alterMetadata`: a drop deletes every row for
that (table, field); an add inserts the row. -/
def applyMetaW (w : MetaWrapper) (m : List MetaRow) : List MetaRow :=
  if w.dropFlag then m.filter (fun r => !(metaMatches w r))
  else m ++ [w.meta]

/-- Embedding of `alterMetadata`'s loop, with a per-change failure
oracle. -/
def execMeta (fail : MetaWrapper → Bool) :
    List MetaWrapper → List MetaRow → Option (List MetaRow)
  | [], m => some m
  | w :: tl, m => if fail w then none else execMeta fail tl (applyMetaW w m)

/-- Embedding of `gormfunc.AlterTable`: the reserved-name and existence
guards, DSL parsing (unknown add-type aborts before the transaction), then
one transaction running every generated statement and every metadata
change; any failure rolls the whole batch back (the returned state is the
input state), success commits all effects. The Bool is whether a table
handle is returned (`nil` on any error path). -/
def AlterTable (fail : DDLOp → Bool) (mfail : MetaWrapper → Bool)
    (tblExists : Bool) (name structureStr : String) (s : DBState) : DBState × Bool :=
  if name = SysMetaTable then (s, false)
  else if ¬ tblExists then (s, false)
  else
    match parseAlterStructure name structureStr with
    | none => (s, false)
    | some ops =>
      match execDDL fail ops.1 s with
      | none => (s, false)
      | some s1 =>
        match execMeta mfail ops.2 s1.meta with
        | none => (s, false)
        | some m2 => ({ s1 with meta := m2 }, true)

end Alter

end Gotulua

namespace Gotulua

/-! ## Helper lemmas -/

theorem toUpper_eq_low (c d : Char) (hd : d.toNat < 65) (h : c.toUpper = d) : c = d := by
  simp only [Char.toUpper] at h
  split at h
  · exfalso
    rename_i hcond
    have hball : ∀ n, n < 123 → 97 ≤ n → 65 ≤ (Char.ofNat (n - 32)).toNat := by decide
    have h2 : 65 ≤ (Char.ofNat (c.toNat - 32)).toNat := hball c.toNat (by omega) (by omega)
    rw [h] at h2
    omega
  · exact h

theorem toLower_eq_low (c d : Char) (hd : d.toNat < 97) (h : c.toLower = d) : c = d := by
  simp only [Char.toLower] at h
  split at h
  · exfalso
    rename_i hcond
    have hball : ∀ n, n < 91 → 65 ≤ n → 97 ≤ (Char.ofNat (n + 32)).toNat := by decide
    have h2 : 97 ≤ (Char.ofNat (c.toNat + 32)).toNat := hball c.toNat (by omega) (by omega)
    rw [h] at h2
    omega
  · exact h

theorem map_toUpper_single (l : List Char) (d : Char) (hd : d.toNat < 65)
    (h : l.map Char.toUpper = [d]) : l = [d] := by
  rcases l with _ | ⟨c, cs⟩
  · simp at h
  · simp only [List.map_cons, List.cons.injEq] at h
    obtain ⟨h1, h2⟩ := h
    have hcs : cs = [] := by simpa using h2
    subst hcs
    rw [toUpper_eq_low c d hd h1]

theorem map_toLower_single (l : List Char) (d : Char) (hd : d.toNat < 97)
    (h : l.map Char.toLower = [d]) : l = [d] := by
  rcases l with _ | ⟨c, cs⟩
  · simp at h
  · simp only [List.map_cons, List.cons.injEq] at h
    obtain ⟨h1, h2⟩ := h
    have hcs : cs = [] := by simpa using h2
    subst hcs
    rw [toLower_eq_low c d hd h1]

theorem string_eq_of_data (s : String) (l : List Char) (h : s.data = l) : s = ⟨l⟩ := by
  cases s
  exact congrArg String.mk h

/-! ## C9: boolean conversion -/

/-- C9: boolean conversion to canonical form is lenient and total: for any
input, direction `ToInternalFormat` returns `"1"` exactly for `"1"` and
case-insensitive `"true"` and `"0"` for everything else (including `"0"`),
never an error; `ToUserFormat` returns `"true"` exactly for `"1"`; an error
arises only for a direction other than these two. -/
theorem C9_formatBool_lenient_total :
    ∀ (s : String) (d : Nat),
      (Boolfunc.FormatBool s Boolfunc.ToInternalFormat =
        .ok (if s.data.map Char.toLower = "true".data ∨ s = "1" then "1" else "0")) ∧
      (Boolfunc.FormatBool s Boolfunc.ToUserFormat =
        .ok (if s = "1" then "true" else "false")) ∧
      ((∃ v, Boolfunc.FormatBool s d = .ok v) ↔ (d = 0 ∨ d = 1)) := by
  intro s d
  refine ⟨?_, ?_, ?_⟩
  · rw [Boolfunc.FormatBool, if_pos rfl]
    split
    · rename_i hup
      rcases hup with hup | hup
      · -- uppercase form is "1", hence s = "1"
        have hs : s = "1" := by
          have := map_toUpper_single s.data '1' (by decide) hup
          exact string_eq_of_data s ['1'] this
        subst hs
        rfl
      · -- uppercase form is "0", hence s = "0"
        have hs : s = "0" := by
          have := map_toUpper_single s.data '0' (by decide) hup
          exact string_eq_of_data s ['0'] this
        subst hs
        rfl
    · rename_i hup
      split
      · rename_i hlow
        rcases hlow with hlow | hlow
        · rw [if_pos (Or.inl hlow)]
          rfl
        · exfalso
          have hs : s = "1" := string_eq_of_data s ['1']
            (map_toLower_single s.data '1' (by decide) hlow)
          subst hs
          exact hup (Or.inl (by decide))
      · rename_i hlow
        rw [if_neg]
        · rfl
        · rintro (hcase | hcase)
          · exact hlow (Or.inl hcase)
          · subst hcase
            exact hup (Or.inl (by decide))
  · rw [Boolfunc.FormatBool, if_neg (by decide), if_pos rfl]
    simp only [Boolfunc.trueInDB]
    split <;> rfl
  · constructor
    · rintro ⟨v, hv⟩
      by_contra hne
      push_neg at hne
      rw [Boolfunc.FormatBool,
        if_neg (by simpa [Boolfunc.ToInternalFormat] using hne.1),
        if_neg (by simpa [Boolfunc.ToUserFormat] using hne.2)] at hv
      exact Except.noConfusion hv
    · intro hd
      rw [Boolfunc.FormatBool]
      rcases hd with rfl | rfl
      · rw [if_pos (show (0 : Nat) = Boolfunc.ToInternalFormat from rfl)]
        split
        · exact ⟨_, rfl⟩
        · split
          · exact ⟨_, rfl⟩
          · exact ⟨_, rfl⟩
      · rw [if_neg (by decide), if_pos (show (1 : Nat) = Boolfunc.ToUserFormat from rfl)]
        split
        · exact ⟨_, rfl⟩
        · exact ⟨_, rfl⟩

/-! ## C4: after-update hook reentrancy -/

/-- C4: with an after-update hook registered whose body itself calls update
on the same record, the nested update's UPDATE statement executes exactly
once (two statements in total for the outer call) and the hook body runs
exactly once, with the reentrancy flag clear again afterwards; moreover the
dispatch is skipped outright whenever the process-wide flag is set. The
result is independent of the fuel bound, witnessing that the Go recursion
terminates through the flag alone. -/
theorem C4_after_update_hook_no_recursion :
    (∀ (fuel u h : Nat), 2 ≤ fuel →
      Hooks.updateWithHook true fuel ⟨false, u, h⟩ = ⟨false, u + 2, h + 1⟩) ∧
    (∀ (body : Hooks.HookState → Hooks.HookState) (s : Hooks.HookState),
      s.flag = true → Hooks.runOnAfterUpdate body s = s) := by
  constructor
  · intro fuel u h hfuel
    obtain ⟨f, rfl⟩ : ∃ f, fuel = f + 2 := ⟨fuel - 2, by omega⟩
    show Hooks.updateWithHook true (f + 1 + 1) ⟨false, u, h⟩ = _
    have harith : u + 1 + 1 = u + 2 := by omega
    simp [Hooks.updateWithHook, Hooks.runOnAfterUpdate, harith]
  · intro body s hs
    rw [Hooks.runOnAfterUpdate, if_pos hs]

/-- C4 witness: concrete run with fuel 2 from a clear flag, and a concrete
skipped dispatch on a set flag. -/
theorem C4_witness :
    Hooks.updateWithHook true 2 ⟨false, 0, 0⟩ = ⟨false, 2, 1⟩ ∧
    Hooks.runOnAfterUpdate id ⟨true, 7, 3⟩ = ⟨true, 7, 3⟩ :=
  ⟨C4_after_update_hook_no_recursion.1 2 0 0 (by decide),
   C4_after_update_hook_no_recursion.2 id ⟨true, 7, 3⟩ rfl⟩

/-! ## C1: SaveField on empty Rowset / placeholder -/

/-- C1 counterexample: deleting the only remaining row leaves an empty
Rowset with cursor 0, and `SaveField` on that state performs neither an
insert nor an update — it returns false (the first guard of `SaveField`
rejects an empty Rowset), contradicting the claim that an empty Rowset
leads to an insert. -/
theorem C1_counterexample :
    deleteRow true (some ⟨[[("id", Val.intV 5)]], 0⟩) = (some ⟨[], 0⟩, true) ∧
    saveFieldAction (some ⟨[], 0⟩) = .noAction ∧
    SFAction.noAction ≠ SFAction.insertNew := by
  refine ⟨by decide, by decide, by decide⟩

/-- C1 (amended): `SaveField` returns false without inserting or updating
when the Rowset is nil or empty — in particular right after `DeleteRow`
removes the only remaining row; it performs the single-field insert when
the Rowset is exactly one new-row placeholder (primary key sentinel 0) or
the cursor is past the last row; in every other in-bounds state it performs
a single-field update keyed by the integer primary key at the cursor. -/
theorem C1_saveField_insert_vs_update :
    (saveFieldAction none = .noAction) ∧
    (∀ rs : Rowset, rs.rows = [] → saveFieldAction (some rs) = .noAction) ∧
    (∀ (r : Record) (rs : Rowset), rs.rows = [r] → rs.pos = 0 →
      deleteRow true (some rs) = (some ⟨[], 0⟩, true) ∧
      saveFieldAction (some ⟨[], 0⟩) = .noAction) ∧
    (∀ (r : Record) (rs : Rowset), rs.rows = [r] →
      r.get PrimaryKeyField = .intV 0 → saveFieldAction (some rs) = .insertNew) ∧
    (∀ rs : Rowset, rs.rows ≠ [] → (rs.rows.length : Int) ≤ rs.pos →
      saveFieldAction (some rs) = .insertNew) ∧
    (∀ (rs : Rowset) (m : Int), 0 ≤ rs.pos → rs.pos < (rs.rows.length : Int) →
      (2 ≤ rs.rows.length ∨ (rs.rows.headD []).get PrimaryKeyField ≠ .intV 0) →
      (rs.rows.getD rs.pos.toNat []).get PrimaryKeyField = .intV m →
      saveFieldAction (some rs) = .updateRow (.intV m)) := by
  refine ⟨by decide, ?_, ?_, ?_, ?_, ?_⟩
  · intro rs hrows
    rw [saveFieldAction]
    simp [hrows]
  · intro r rs hrows hpos
    constructor
    · rw [deleteRow]
      simp [hrows, hpos]
    · decide
  · intro r rs hrows hid
    rw [saveFieldAction]
    simp only [hrows]
    rw [if_neg (by simp), if_pos]
    right
    exact ⟨by simp, by simpa using hid⟩
  · intro rs hne hle
    rw [saveFieldAction]
    rw [if_neg (by have := List.length_pos_of_ne_nil hne; omega), if_pos (Or.inl hle)]
  · intro rs m h0 hlt hnot hid
    rw [saveFieldAction]
    rw [if_neg, if_neg, hid]
    · rintro (hge | ⟨hlen, hph⟩)
      · omega
      · rcases hnot with h2 | hh
        · omega
        · exact hh hph
    · omega

/-- C1 witness: the amended theorem applied to concrete Rowsets — deleting
the single row of a one-row table then attempting `SaveField`, a
placeholder Rowset (insert), a past-the-end cursor (insert), and a
two-row Rowset with the cursor on the second row (update by its id). -/
theorem C1_witness :
    (deleteRow true (some ⟨[[("id", Val.intV 5)]], 0⟩) = (some ⟨[], 0⟩, true) ∧
      saveFieldAction (some ⟨[], 0⟩) = .noAction) ∧
    saveFieldAction (some ⟨[[("id", Val.intV 0)]], 0⟩) = .insertNew ∧
    saveFieldAction (some ⟨[[("id", Val.intV 4)]], 1⟩) = .insertNew ∧
    saveFieldAction (some ⟨[[("id", Val.intV 7)], [("id", Val.intV 9)]], 1⟩) =
      .updateRow (.intV 9) :=
  ⟨C1_saveField_insert_vs_update.2.2.1 [("id", Val.intV 5)] ⟨[[("id", Val.intV 5)]], 0⟩ rfl rfl,
   C1_saveField_insert_vs_update.2.2.2.1 [("id", Val.intV 0)] ⟨[[("id", Val.intV 0)]], 0⟩ rfl
     (by decide),
   C1_saveField_insert_vs_update.2.2.2.2.1 ⟨[[("id", Val.intV 4)]], 1⟩ (by decide) (by decide),
   C1_saveField_insert_vs_update.2.2.2.2.2 ⟨[[("id", Val.intV 7)], [("id", Val.intV 9)]], 1⟩ 9
     (by decide) (by decide) (Or.inl (by decide)) (by decide)⟩

/-! ## C10: Insert requires a loaded Rowset -/

/-- C10: on the success path (conversions, INSERT, id read-back and row
re-fetch all succeed) `Insert` unconditionally reads `t.Rows.Rows`, so on
an unloaded table (`Rows == nil`) it dereferences a nil pointer (modelled
as `none`) instead of returning a failure indicator; with a non-nil Rowset
the maintenance postcondition holds: a trailing placeholder row (primary
key 0) is replaced in place, otherwise the new record is appended with the
cursor moved to it. -/
theorem C10_insert_nil_rowset_panics :
    (∀ env : InsertEnv, env.convOk = true → env.execOk = true → env.lastIdOk = true →
      ∀ r, env.fetched = some r → insert env none = none) ∧
    (∀ (env : InsertEnv) (rs : Rowset) (r : Record),
      env.convOk = true → env.execOk = true → env.lastIdOk = true →
      env.fetched = some r →
      rs.rows ≠ [] → (rs.rows.getLastD []).get PrimaryKeyField = .intV 0 →
      insert env (some rs) = some (some ⟨rs.rows.dropLast ++ [r], rs.pos⟩, true, env.lastId)) ∧
    (∀ (env : InsertEnv) (rs : Rowset) (r : Record),
      env.convOk = true → env.execOk = true → env.lastIdOk = true →
      env.fetched = some r →
      ¬ (rs.rows ≠ [] ∧ (rs.rows.getLastD []).get PrimaryKeyField = .intV 0) →
      insert env (some rs) =
        some (some ⟨rs.rows ++ [r], (rs.rows.length : Int)⟩, true, env.lastId)) ∧
    (∀ (env : InsertEnv) (rs? : Option Rowset), env.convOk = false →
      insert env rs? = some (rs?, false, 0)) := by
  refine ⟨?_, ?_, ?_, ?_⟩
  · intro env hc he hl r hf
    rw [insert]
    simp [hc, he, hl, hf]
  · intro env rs r hc he hl hf hne hph
    rw [insert]
    simp only [hc, he, hl, hf, not_true, if_neg, reduceIte]
    rw [if_pos ⟨List.length_pos_of_ne_nil hne, hph⟩]
  · intro env rs r hc he hl hf hnot
    rw [insert]
    simp only [hc, he, hl, hf, not_true, if_neg, reduceIte]
    rw [if_neg (by
      rintro ⟨hlen, hph⟩
      exact hnot ⟨List.ne_nil_of_length_pos hlen, hph⟩)]
    have : ((rs.rows.length + 1 : Nat) : Int) - 1 = (rs.rows.length : Int) := by push_cast; ring
    rw [this]
  · intro env rs? hc
    rw [insert]
    simp [hc]

/-- C10 witness: a concrete successful-environment `Insert` panics on a nil
Rowset, replaces a concrete trailing placeholder, appends to a concrete
loaded Rowset, and returns false on a failed conversion. -/
theorem C10_witness :
    insert ⟨true, true, true, 3, some [("id", Val.intV 3)]⟩ none = none ∧
    insert ⟨true, true, true, 3, some [("id", Val.intV 3)]⟩
        (some ⟨[[("id", Val.intV 0)]], 0⟩) =
      some (some ⟨[[("id", Val.intV 3)]], 0⟩, true, 3) ∧
    insert ⟨true, true, true, 3, some [("id", Val.intV 3)]⟩
        (some ⟨[[("id", Val.intV 1)]], 0⟩) =
      some (some ⟨[[("id", Val.intV 1)], [("id", Val.intV 3)]], 1⟩, true, 3) ∧
    insert ⟨false, true, true, 3, some [("id", Val.intV 3)]⟩ none = some (none, false, 0) := by
  refine ⟨C10_insert_nil_rowset_panics.1 _ rfl rfl rfl _ rfl, ?_, ?_,
    C10_insert_nil_rowset_panics.2.2.2 _ none rfl⟩
  · have := C10_insert_nil_rowset_panics.2.1 ⟨true, true, true, 3, some [("id", Val.intV 3)]⟩
      ⟨[[("id", Val.intV 0)]], 0⟩ [("id", Val.intV 3)] rfl rfl rfl rfl (by decide) (by decide)
    simpa using this
  · have := C10_insert_nil_rowset_panics.2.2.1 ⟨true, true, true, 3, some [("id", Val.intV 3)]⟩
      ⟨[[("id", Val.intV 1)]], 0⟩ [("id", Val.intV 3)] rfl rfl rfl rfl (by decide)
    simpa using this

/-! ## C7: FindByID Rowset maintenance -/

theorem findRowIdx_first (id : Val) :
    ∀ (rows : List Record) (i : Nat) (row : Record),
      rows[i]? = some row → row.get PrimaryKeyField = id →
      (∀ j, j < i → ∀ rj, rows[j]? = some rj → rj.get PrimaryKeyField ≠ id) →
      findRowIdx id rows = some i := by
  intro rows
  induction rows with
  | nil =>
    intro i row hg
    simp at hg
  | cons r0 rest ih =>
    intro i row hg hid hfirst
    cases i with
    | zero =>
      simp only [List.getElem?_cons_zero, Option.some.injEq] at hg
      rw [findRowIdx, if_pos]
      rw [← hg] at hid
      exact hid
    | succ j =>
      have h0 : r0.get PrimaryKeyField ≠ id :=
        hfirst 0 (Nat.succ_pos j) r0 (by simp)
      rw [findRowIdx, if_neg h0]
      have := ih j row (by simpa using hg) hid
        (fun j' hj' rj hrj => hfirst (j' + 1) (by omega) rj (by simpa using hrj))
      rw [this]
      rfl

/-- C7: `FindByID` with a successfully fetched record creates a one-row
Rowset at cursor 0 when no Rowset exists; with an existing Rowset it
replaces the first row whose primary key matches in place and moves the
cursor to that index, leaving every other row untouched; and the call
returns whether the row was found (false leaves the Rowset alone). -/
theorem C7_findByID_in_place :
    (∀ (id : Val) (r : Record), findByID id (some r) none = (some ⟨[r], 0⟩, true)) ∧
    (∀ (id : Val) (r : Record) (rs : Rowset) (i : Nat) (row : Record),
      rs.rows[i]? = some row → row.get PrimaryKeyField = id →
      (∀ j, j < i → ∀ rj, rs.rows[j]? = some rj → rj.get PrimaryKeyField ≠ id) →
      findByID id (some r) (some rs) = (some ⟨rs.rows.set i r, (i : Int)⟩, true) ∧
      (∀ j : Nat, j ≠ i → (rs.rows.set i r)[j]? = rs.rows[j]?) ∧
      (rs.rows.set i r).length = rs.rows.length) ∧
    (∀ (id : Val) (rs? : Option Rowset), findByID id none rs? = (rs?, false)) := by
  refine ⟨fun id r => rfl, ?_, fun id rs? => rfl⟩
  intro id r rs i row hg hid hfirst
  refine ⟨?_, ?_, by simp⟩
  · rw [findByID, findRowIdx_first id rs.rows i row hg hid hfirst]
  · intro j hj
    exact List.getElem?_set_ne (fun h => hj h.symm)

/-- C7 witness: a two-row Rowset where the second row matches id 9 — the
fetched record replaces it in place, the first row survives, and the
no-Rowset / failed-fetch cases behave as stated. -/
theorem C7_witness :
    findByID (.intV 9) (some [("id", Val.intV 9), ("n", Val.strV "x")])
        (some ⟨[[("id", Val.intV 7)], [("id", Val.intV 9)]], 0⟩) =
      (some ⟨[[("id", Val.intV 7)], [("id", Val.intV 9), ("n", Val.strV "x")]], 1⟩, true) ∧
    findByID (.intV 5) (some [("id", Val.intV 5)]) none = (some ⟨[[("id", Val.intV 5)]], 0⟩, true) ∧
    findByID (.intV 5) none (some ⟨[[("id", Val.intV 7)]], 0⟩) =
      (some ⟨[[("id", Val.intV 7)]], 0⟩, false) := by
  refine ⟨?_, C7_findByID_in_place.1 (.intV 5) [("id", Val.intV 5)],
    C7_findByID_in_place.2.2 (.intV 5) (some ⟨[[("id", Val.intV 7)]], 0⟩)⟩
  have := (C7_findByID_in_place.2.1 (.intV 9) [("id", Val.intV 9), ("n", Val.strV "x")]
    ⟨[[("id", Val.intV 7)], [("id", Val.intV 9)]], 0⟩ 1 [("id", Val.intV 9)]
    (by decide) (by decide) ?_).1
  · simpa using this
  · intro j hj rj hrj
    interval_cases j
    simp only [List.getElem?_cons_zero, Option.some.injEq] at hrj
    subst hrj
    decide

/-! ## C8: cursor movement -/

/-- C8: within bounds, `Next` succeeds and advances by one exactly when the
cursor is not on the last row and fails without moving on the last row;
`Prev` fails without moving at row 0 and otherwise steps back; after a
successful `Find` (nonempty result set, cursor reset to 0) iterating `Next`
visits positions `0..n-1` and the n-th call returns false without moving. -/
theorem C8_next_prev_iteration :
    (∀ rs : Rowset, 0 ≤ rs.pos → rs.pos < (rs.rows.length : Int) →
      ((next rs = ({ rs with pos := rs.pos + 1 }, true)) ↔
        rs.pos ≠ (rs.rows.length : Int) - 1) ∧
      (rs.pos = (rs.rows.length : Int) - 1 → next rs = (rs, false))) ∧
    (∀ rs : Rowset,
      (rs.pos = 0 → prev rs = (rs, false)) ∧
      (1 ≤ rs.pos → prev rs = ({ rs with pos := rs.pos - 1 }, true))) ∧
    (∀ (results : List Record) (rs? : Option Rowset),
      (findAll results rs?).1 = some ⟨results, 0⟩ ∧
      ((findAll results rs?).2 = true ↔ results ≠ [])) ∧
    (∀ results : List Record, results ≠ [] →
      (∀ k : Nat, k < results.length →
        (nextS^[k] ⟨results, 0⟩) = ⟨results, (k : Int)⟩) ∧
      (∀ k : Nat, k + 1 < results.length →
        next (nextS^[k] ⟨results, 0⟩) = (⟨results, ((k : Int) + 1)⟩, true)) ∧
      next (nextS^[results.length - 1] ⟨results, 0⟩) =
        (nextS^[results.length - 1] ⟨results, 0⟩, false)) := by
  refine ⟨?_, ?_, ?_, ?_⟩
  · intro rs h0 hlt
    constructor
    · constructor
      · intro hnext heq
        rw [next, if_neg (by omega)] at hnext
        exact Bool.noConfusion (congrArg Prod.snd hnext)
      · intro hne
        rw [next, if_pos (by omega)]
    · intro heq
      rw [next, if_neg (by omega)]
  · intro rs
    constructor
    · intro h0
      rw [prev, if_neg (by omega)]
    · intro h1
      rw [prev, if_pos (by omega)]
  · intro results rs?
    refine ⟨rfl, ?_⟩
    rw [findAll]
    constructor
    · intro h
      simp only [decide_eq_true_eq] at h
      exact List.ne_nil_of_length_pos h
    · intro h
      simp only [decide_eq_true_eq]
      exact List.length_pos_of_ne_nil h
  · intro results hne
    have hlen : 1 ≤ results.length := List.length_pos_of_ne_nil hne
    have hiter : ∀ k : Nat, k < results.length →
        (nextS^[k] ⟨results, 0⟩) = ⟨results, (k : Int)⟩ := by
      intro k
      induction k with
      | zero => intro _; rfl
      | succ j ih =>
        intro hk
        rw [Function.iterate_succ_apply', ih (by omega), nextS, next,
          if_pos (by push_cast; omega)]
        simp only [Rowset.mk.injEq, true_and]
        push_cast
        ring
    refine ⟨hiter, ?_, ?_⟩
    · intro k hk
      rw [hiter k (by omega), next, if_pos (by push_cast; omega)]
    · rw [hiter (results.length - 1) (by omega), next, if_neg (by push_cast; omega)]

/-- C8 witness: a three-row `Find` — the iteration visits cursor positions
0, 1, 2, the two in-bounds `Next` calls succeed, the third fails without
moving, and `Prev` at 0 fails without moving. -/
theorem C8_witness :
    (nextS^[1] ⟨[[("id", Val.intV 1)], [("id", Val.intV 2)], [("id", Val.intV 3)]], 0⟩ =
      ⟨[[("id", Val.intV 1)], [("id", Val.intV 2)], [("id", Val.intV 3)]], 1⟩) ∧
    next (nextS^[2] ⟨[[("id", Val.intV 1)], [("id", Val.intV 2)], [("id", Val.intV 3)]], 0⟩) =
      (nextS^[2] ⟨[[("id", Val.intV 1)], [("id", Val.intV 2)], [("id", Val.intV 3)]], 0⟩, false) ∧
    prev ⟨[[("id", Val.intV 1)]], 0⟩ = (⟨[[("id", Val.intV 1)]], 0⟩, false) := by
  refine ⟨?_, ?_, (C8_next_prev_iteration.2.1 ⟨[[("id", Val.intV 1)]], 0⟩).1 rfl⟩
  · have := (C8_next_prev_iteration.2.2.2
      [[("id", Val.intV 1)], [("id", Val.intV 2)], [("id", Val.intV 3)]] (by decide)).1 1
      (by decide)
    simpa using this
  · have := (C8_next_prev_iteration.2.2.2
      [[("id", Val.intV 1)], [("id", Val.intV 2)], [("id", Val.intV 3)]] (by decide)).2.2
    simpa using this

/-! ## C3: template validation at format-set time -/

/-- C3: the validator rejects the well-formed default templates, so it does
not raise an error "if and only if a required token is missing or a unit is
duplicated". The overlong-token checks are negated in the source
(`!strings.Contains(df, "yyyyy")`, `!Contains(df, "ddd")`,
`!Contains(df, "sss")`, and the hour-length check tests `yyy`), so
`"dd.mm.yyyy"` — the shipped default, containing every required date token
exactly once — fails with year-length and day-length errors, `"hh:ii:ss"`
fails with hour-length and seconds-length errors, and the format setters
raise a configuration error on their own default templates. -/
theorem C3_default_templates_rejected :
    Timefunc.checkIfDTFormatIsValid "dd.mm.yyyy" TypeDate = [.yearLength, .dayLength] ∧
    Timefunc.checkIfDTFormatIsValid "hh:ii:ss" TypeTime = [.hourLength, .secLength] ∧
    Timefunc.SetDateFormat "dd.mm.yyyy" = .error [.yearLength, .dayLength] ∧
    Timefunc.SetTimeFormat "hh:ii:ss" = .error [.hourLength, .secLength] ∧
    Timefunc.SetDateTimeFormat "dd.mm.yyyy hh:ii:ss" =
      .error [.yearLength, .dayLength, .secLength] := by
  refine ⟨by decide, by decide, by decide, by decide, by decide⟩

/-! ## C2: compiling the date range filter -/

/-- C2: compiling `">=01.01.2024&<=31.12.2024"` for a Date field does not
produce greater-or-equal / less-or-equal comparisons against canonical
dates: the source's `switch true` tests `>` before `>=` (and `<` before
`<=`), so the clauses compile to strict comparisons whose operands keep a
leading `=` and therefore fail display→canonical conversion and are
embedded raw. Under SQLite TEXT comparison the generated predicate selects
none of the three rows `20231231`, `20240615`, `20250101`, while the
predicate the claim describes (`>= '20240101' AND <= '20241231'`) selects
exactly the middle row. -/
theorem C2_filter_range_switch_bug :
    Filter.parseFilterByType Timefunc.defaultFmts "F" ">=01.01.2024&<=31.12.2024" TypeDate
      = "F > '=01.01.2024' AND F < '=31.12.2024'" ∧
    ((Filter.selGT "20231231" "=01.01.2024" && Filter.selLT "20231231" "=31.12.2024") = false ∧
     (Filter.selGT "20240615" "=01.01.2024" && Filter.selLT "20240615" "=31.12.2024") = false ∧
     (Filter.selGT "20250101" "=01.01.2024" && Filter.selLT "20250101" "=31.12.2024") = false) ∧
    ((Filter.selGE "20231231" "20240101" && Filter.selLE "20231231" "20241231") = false ∧
     (Filter.selGE "20240615" "20240101" && Filter.selLE "20240615" "20241231") = true ∧
     (Filter.selGE "20250101" "20240101" && Filter.selLE "20250101" "20241231") = false) ∧
    Timefunc.FormatDateTime Timefunc.defaultFmts "01.01.2024" TypeDate
      Timefunc.ToInternalFormat = .ok "20240101" := by
  refine ⟨by decide, ⟨by decide, by decide, by decide⟩,
    ⟨by decide, by decide, by decide⟩, by decide⟩

/-! ## C5: AlterTable atomicity and metadata effect -/

theorem filter_not_length (p : α → Bool) (l : List α) :
    (l.filter fun a => !(p a)).length + l.countP p = l.length := by
  induction l with
  | nil => rfl
  | cons a t ih =>
    by_cases h : p a <;> simp [List.filter_cons, List.countP_cons, h] <;> omega

/-- C5: every failing `AlterTable` call (reserved name, missing table,
unknown add-type, any failed statement, any failed metadata change) leaves
the table DDL and the metadata store exactly as they were; a successful
call whose DSL is a single `drop::field` removes precisely the metadata
rows for that (table, field) — exactly one row when the store holds exactly
one — keeps every other row, and drops the column. -/
theorem C5_alterTable_atomic :
    (∀ (fail : Alter.DDLOp → Bool) (mfail : Alter.MetaWrapper → Bool)
       (ex : Bool) (name st : String) (s : Alter.DBState),
      (Alter.AlterTable fail mfail ex name st s).2 = false →
      (Alter.AlterTable fail mfail ex name st s).1 = s) ∧
    (∀ (fail : Alter.DDLOp → Bool) (mfail : Alter.MetaWrapper → Bool)
       (name st : String) (s s' : Alter.DBState) (f : String),
      Alter.parseAlterStructure name st =
        some ([.dropCol f], [⟨⟨name, f, "", "", false, "", false⟩, true⟩]) →
      Alter.AlterTable fail mfail true name st s = (s', true) →
      s'.meta = s.meta.filter
        (fun r => !(Alter.metaMatches ⟨⟨name, f, "", "", false, "", false⟩, true⟩ r)) ∧
      (s.meta.countP (Alter.metaMatches ⟨⟨name, f, "", "", false, "", false⟩, true⟩) = 1 →
        s'.meta.length + 1 = s.meta.length) ∧
      (∀ r ∈ s.meta,
        Alter.metaMatches ⟨⟨name, f, "", "", false, "", false⟩, true⟩ r = false →
        r ∈ s'.meta) ∧
      (∀ r ∈ s'.meta,
        Alter.metaMatches ⟨⟨name, f, "", "", false, "", false⟩, true⟩ r = false) ∧
      s'.cols = s.cols.erase f) := by
  constructor
  · intro fail mfail ex name st s
    rw [Alter.AlterTable]
    split
    · exact fun _ => rfl
    · split
      · exact fun _ => rfl
      · split
        · exact fun _ => rfl
        · split
          · exact fun _ => rfl
          · split
            · exact fun _ => rfl
            · intro h
              exact absurd h (by simp)
  · intro fail mfail name st s s' f hparse hrun
    rw [Alter.AlterTable] at hrun
    split at hrun
    · exact absurd (congrArg Prod.snd hrun) (by simp)
    · split at hrun
      · exact absurd (congrArg Prod.snd hrun) (by simp)
      · split at hrun
        · rename_i hnone
          rw [hparse] at hnone
          exact Option.noConfusion hnone
        · rename_i ops hops
          rw [hparse] at hops
          injection hops with hops
          subst hops
          split at hrun
          · exact absurd (congrArg Prod.snd hrun) (by simp)
          · rename_i s1 hs1
            have hexec : Alter.execDDL fail [Alter.DDLOp.dropCol f] s =
                if fail (.dropCol f) then none
                else some (Alter.applyDDL (.dropCol f) s) := by
              by_cases hf : fail (.dropCol f) <;> simp [Alter.execDDL, hf]
            rw [hexec] at hs1
            by_cases hf : fail (.dropCol f)
            · rw [if_pos hf] at hs1
              exact Option.noConfusion hs1
            · rw [if_neg hf] at hs1
              injection hs1 with hs1
              subst hs1
              split at hrun
              · exact absurd (congrArg Prod.snd hrun) (by simp)
              · rename_i m2 hm2
                have hmeta : Alter.execMeta mfail
                    [⟨⟨name, f, "", "", false, "", false⟩, true⟩]
                    (Alter.applyDDL (.dropCol f) s).meta =
                    if mfail ⟨⟨name, f, "", "", false, "", false⟩, true⟩ then none
                    else some (Alter.applyMetaW ⟨⟨name, f, "", "", false, "", false⟩, true⟩
                      (Alter.applyDDL (.dropCol f) s).meta) := by
                  by_cases hm : mfail ⟨⟨name, f, "", "", false, "", false⟩, true⟩ <;>
                    simp [Alter.execMeta, hm]
                rw [hmeta] at hm2
                by_cases hm : mfail ⟨⟨name, f, "", "", false, "", false⟩, true⟩
                · rw [if_pos hm] at hm2
                  exact Option.noConfusion hm2
                · rw [if_neg hm] at hm2
                  injection hm2 with hm2
                  subst hm2
                  have hs' : s' = ⟨s.cols.erase f,
                      Alter.applyMetaW ⟨⟨name, f, "", "", false, "", false⟩, true⟩ s.meta⟩ := by
                    have := congrArg Prod.fst hrun
                    exact this.symm
                  subst hs'
                  have happ : Alter.applyMetaW ⟨⟨name, f, "", "", false, "", false⟩, true⟩ s.meta
                      = s.meta.filter
                        (fun r => !(Alter.metaMatches
                          ⟨⟨name, f, "", "", false, "", false⟩, true⟩ r)) := by
                    simp [Alter.applyMetaW]
                  simp only [happ]
                  refine ⟨trivial, ?_, ?_, ?_, trivial⟩
                  · intro hcount
                    have := filter_not_length
                      (Alter.metaMatches ⟨⟨name, f, "", "", false, "", false⟩, true⟩) s.meta
                    omega
                  · intro r hr hnm
                    exact List.mem_filter.2 ⟨hr, by simp [hnm]⟩
                  · intro r hr
                    have := (List.mem_filter.1 hr).2
                    simpa using this

/-- C5 witness: with an always-failing statement oracle the state is
untouched; with no failures, dropping `ProjectId` from a two-row metadata
store removes exactly its row and keeps the other field's row, and removes
the column. -/
theorem C5_witness :
    (Alter.AlterTable (fun _ => true) (fun _ => false) true "T" "drop::ProjectId"
      ⟨["id", "ProjectId"],
        [⟨"T", "ProjectId", "TEXT", "DATE", false, "", false⟩]⟩).1 =
      ⟨["id", "ProjectId"], [⟨"T", "ProjectId", "TEXT", "DATE", false, "", false⟩]⟩ ∧
    ((Alter.AlterTable (fun _ => false) (fun _ => false) true "T" "drop::ProjectId"
      ⟨["id", "ProjectId", "X"],
        [⟨"T", "ProjectId", "TEXT", "DATE", false, "", false⟩,
         ⟨"T", "X", "INTEGER", "", false, "0", false⟩]⟩).1).meta =
      [⟨"T", "ProjectId", "TEXT", "DATE", false, "", false⟩,
       ⟨"T", "X", "INTEGER", "", false, "0", false⟩].filter
        (fun r => !(Alter.metaMatches ⟨⟨"T", "ProjectId", "", "", false, "", false⟩, true⟩ r)) := by
  constructor
  · exact C5_alterTable_atomic.1 (fun _ => true) (fun _ => false) true "T" "drop::ProjectId"
      ⟨["id", "ProjectId"], [⟨"T", "ProjectId", "TEXT", "DATE", false, "", false⟩]⟩ (by decide)
  · exact (C5_alterTable_atomic.2 (fun _ => false) (fun _ => false) "T" "drop::ProjectId"
      ⟨["id", "ProjectId", "X"],
        [⟨"T", "ProjectId", "TEXT", "DATE", false, "", false⟩,
         ⟨"T", "X", "INTEGER", "", false, "0", false⟩]⟩
      ⟨["id", "X"], [⟨"T", "X", "INTEGER", "", false, "0", false⟩]⟩ "ProjectId"
      (by decide) (by decide)).1

/-! ## C6: display-format round trip — digit arithmetic layer -/

namespace Timefunc

theorem natDigitsF_small (f n : Nat) (h : n < 10) : natDigitsF f n = [Nat.digitChar n] := by
  cases f with
  | zero => rfl
  | succ g => rw [natDigitsF, if_pos h]

theorem natDigitsF_two (f n : Nat) (hf : 1 ≤ f) (h1 : 10 ≤ n) (h2 : n < 100) :
    natDigitsF f n = [Nat.digitChar (n / 10), Nat.digitChar (n % 10)] := by
  obtain ⟨g, rfl⟩ : ∃ g, f = g + 1 := ⟨f - 1, by omega⟩
  rw [natDigitsF, if_neg (by omega), natDigitsF_small g (n / 10) (by omega)]
  rfl

theorem natDigitsF_three (f n : Nat) (hf : 2 ≤ f) (h1 : 100 ≤ n) (h2 : n < 1000) :
    natDigitsF f n =
      [Nat.digitChar (n / 100), Nat.digitChar (n / 10 % 10), Nat.digitChar (n % 10)] := by
  obtain ⟨g, rfl⟩ : ∃ g, f = g + 1 := ⟨f - 1, by omega⟩
  rw [natDigitsF, if_neg (by omega), natDigitsF_two g (n / 10) (by omega) (by omega) (by omega)]
  have hdd : n / 10 / 10 = n / 100 := by omega
  have hdm : n / 10 % 10 = n / 10 % 10 := rfl
  rw [hdd]
  rfl

theorem natDigitsF_four (f n : Nat) (hf : 3 ≤ f) (h1 : 1000 ≤ n) (h2 : n < 10000) :
    natDigitsF f n =
      [Nat.digitChar (n / 1000), Nat.digitChar (n / 100 % 10),
       Nat.digitChar (n / 10 % 10), Nat.digitChar (n % 10)] := by
  obtain ⟨g, rfl⟩ : ∃ g, f = g + 1 := ⟨f - 1, by omega⟩
  rw [natDigitsF, if_neg (by omega),
    natDigitsF_three g (n / 10) (by omega) (by omega) (by omega)]
  have hdd : n / 10 / 100 = n / 1000 := by omega
  have hde : n / 10 / 10 % 10 = n / 100 % 10 := by omega
  rw [hdd, hde]
  rfl

theorem padInt_two (n : Nat) (h : n < 100) :
    padInt n 2 = [Nat.digitChar (n / 10), Nat.digitChar (n % 10)] := by
  rcases Nat.lt_or_ge n 10 with h10 | h10
  · have hz : n / 10 = 0 := by omega
    have hm : n % 10 = n := by omega
    rw [padInt, natDigits, natDigitsF_small n n h10, hz, hm]
    rfl
  · rw [padInt, natDigits, natDigitsF_two n n (by omega) h10 h]
    rfl

theorem padInt_four (n : Nat) (h : n < 10000) :
    padInt n 4 = [Nat.digitChar (n / 1000), Nat.digitChar (n / 100 % 10),
      Nat.digitChar (n / 10 % 10), Nat.digitChar (n % 10)] := by
  rcases Nat.lt_or_ge n 10 with h10 | h10
  · have e1 : n / 1000 = 0 := by omega
    have e2 : n / 100 % 10 = 0 := by omega
    have e3 : n / 10 % 10 = 0 := by omega
    have e4 : n % 10 = n := by omega
    rw [padInt, natDigits, natDigitsF_small n n h10, e1, e2, e3, e4]
    rfl
  · rcases Nat.lt_or_ge n 100 with h100 | h100
    · have e1 : n / 1000 = 0 := by omega
      have e2 : n / 100 % 10 = 0 := by omega
      have e3 : n / 10 % 10 = n / 10 := by omega
      rw [padInt, natDigits, natDigitsF_two n n (by omega) h10 h100, e1, e2, e3]
      rfl
    · rcases Nat.lt_or_ge n 1000 with h1000 | h1000
      · have e1 : n / 1000 = 0 := by omega
        have e2 : n / 100 % 10 = n / 100 := by omega
        rw [padInt, natDigits, natDigitsF_three n n (by omega) h100 h1000, e1, e2]
        rfl
      · rw [padInt, natDigits, natDigitsF_four n n (by omega) h1000 h]
        rfl

theorem natDigitsF_ne_nil (f n : Nat) : natDigitsF f n ≠ [] := by
  cases f with
  | zero => simp [natDigitsF]
  | succ g =>
    rw [natDigitsF]
    split
    · simp
    · simp

theorem padInt_ne_nil (n w : Nat) : padInt n w ≠ [] := by
  rw [padInt]
  intro h
  rcases List.append_eq_nil.1 h with ⟨_, h2⟩
  exact natDigitsF_ne_nil n n h2

theorem isDigit_bounds (c : Char) (h : c.isDigit = true) : 48 ≤ c.toNat ∧ c.toNat ≤ 57 := by
  simp only [Char.isDigit, Bool.and_eq_true, decide_eq_true_eq] at h
  exact ⟨h.1, h.2⟩

theorem digi_lt_ten (c : Char) (h : c.isDigit = true) : digi c < 10 := by
  have := isDigit_bounds c h
  rw [digi]
  omega

theorem digitChar_digi (c : Char) (h : c.isDigit = true) : Nat.digitChar (digi c) = c := by
  have hb := isDigit_bounds c h
  have hv : ∀ n, 48 ≤ n → n < 58 → Nat.digitChar (n - 48) = Char.ofNat n := by decide
  have := hv c.toNat hb.1 (Nat.lt_succ_of_le hb.2)
  rw [digi, this, Char.ofNat_toNat]

theorem digitChar_isDigit (k : Nat) (h : k < 10) : (Nat.digitChar k).isDigit = true := by
  interval_cases k <;> decide

theorem digi_digitChar (k : Nat) (h : k < 10) : digi (Nat.digitChar k) = k := by
  interval_cases k <;> decide

theorem parse2_sound (cs : List Char) (n : Nat) (r : List Char)
    (h : parse2 cs = some (n, r)) : n < 100 ∧ cs = padInt n 2 ++ r := by
  rcases cs with _ | ⟨c1, cs1⟩
  · exact absurd h (by simp [parse2])
  rcases cs1 with _ | ⟨c2, rest⟩
  · exact absurd h (by simp [parse2])
  rw [parse2] at h
  by_cases hd : c1.isDigit && c2.isDigit
  · rw [if_pos hd] at h
    simp only [Option.some.injEq, Prod.mk.injEq] at h
    obtain ⟨hn, hr⟩ := h
    rw [Bool.and_eq_true] at hd
    obtain ⟨hd1, hd2⟩ := hd
    have hl1 := digi_lt_ten c1 hd1
    have hl2 := digi_lt_ten c2 hd2
    subst hn hr
    constructor
    · omega
    · rw [padInt_two _ (by omega)]
      have e1 : (10 * digi c1 + digi c2) / 10 = digi c1 := by omega
      have e2 : (10 * digi c1 + digi c2) % 10 = digi c2 := by omega
      rw [e1, e2, digitChar_digi c1 hd1, digitChar_digi c2 hd2]
      rfl
  · rw [if_neg hd] at h
    exact Option.noConfusion h

theorem parse2_complete (n : Nat) (r : List Char) (h : n < 100) :
    parse2 (padInt n 2 ++ r) = some (n, r) := by
  rw [padInt_two n h]
  show parse2 (Nat.digitChar (n / 10) :: Nat.digitChar (n % 10) :: r) = _
  rw [parse2, if_pos]
  · rw [digi_digitChar _ (by omega), digi_digitChar _ (by omega)]
    have hrec : 10 * (n / 10) + n % 10 = n := by omega
    rw [hrec]
  · rw [digitChar_isDigit _ (by omega), digitChar_isDigit _ (by omega)]
    rfl

theorem parse4_sound (cs : List Char) (n : Nat) (r : List Char)
    (h : parse4 cs = some (n, r)) : n < 10000 ∧ cs = padInt n 4 ++ r := by
  rcases cs with _ | ⟨c1, cs1⟩
  · exact absurd h (by simp [parse4])
  rcases cs1 with _ | ⟨c2, cs2⟩
  · exact absurd h (by simp [parse4])
  rcases cs2 with _ | ⟨c3, cs3⟩
  · exact absurd h (by simp [parse4])
  rcases cs3 with _ | ⟨c4, rest⟩
  · exact absurd h (by simp [parse4])
  rw [parse4] at h
  by_cases hd : c1.isDigit && c2.isDigit && c3.isDigit && c4.isDigit
  · rw [if_pos hd] at h
    simp only [Option.some.injEq, Prod.mk.injEq] at h
    obtain ⟨hn, hr⟩ := h
    simp only [Bool.and_eq_true] at hd
    obtain ⟨⟨⟨hd1, hd2⟩, hd3⟩, hd4⟩ := hd
    have hl1 := digi_lt_ten c1 hd1
    have hl2 := digi_lt_ten c2 hd2
    have hl3 := digi_lt_ten c3 hd3
    have hl4 := digi_lt_ten c4 hd4
    subst hn hr
    constructor
    · omega
    · rw [padInt_four _ (by omega)]
      have e1 : (1000 * digi c1 + 100 * digi c2 + 10 * digi c3 + digi c4) / 1000 = digi c1 := by
        omega
      have e2 : (1000 * digi c1 + 100 * digi c2 + 10 * digi c3 + digi c4) / 100 % 10 =
          digi c2 := by omega
      have e3 : (1000 * digi c1 + 100 * digi c2 + 10 * digi c3 + digi c4) / 10 % 10 =
          digi c3 := by omega
      have e4 : (1000 * digi c1 + 100 * digi c2 + 10 * digi c3 + digi c4) % 10 = digi c4 := by
        omega
      rw [e1, e2, e3, e4, digitChar_digi c1 hd1, digitChar_digi c2 hd2,
        digitChar_digi c3 hd3, digitChar_digi c4 hd4]
      rfl
  · rw [if_neg hd] at h
    exact Option.noConfusion h

theorem parse4_complete (n : Nat) (r : List Char) (h : n < 10000) :
    parse4 (padInt n 4 ++ r) = some (n, r) := by
  rw [padInt_four n h]
  show parse4 (Nat.digitChar (n / 1000) :: Nat.digitChar (n / 100 % 10)
    :: Nat.digitChar (n / 10 % 10) :: Nat.digitChar (n % 10) :: r) = _
  rw [parse4, if_pos]
  · rw [digi_digitChar _ (by omega), digi_digitChar _ (by omega),
      digi_digitChar _ (by omega), digi_digitChar _ (by omega)]
    have hrec : 1000 * (n / 1000) + 100 * (n / 100 % 10) + 10 * (n / 10 % 10) + n % 10 = n := by
      omega
    rw [hrec]
  · rw [digitChar_isDigit _ (by omega), digitChar_isDigit _ (by omega),
      digitChar_isDigit _ (by omega), digitChar_isDigit _ (by omega)]
    rfl

/-! ### Single-token `parseToks` stepping lemmas -/

theorem parseToks_nil (acc : DTime) (cs : List Char) :
    parseToks [] acc cs = some (acc, cs) := rfl

theorem parseToks_y4_some (tl : List GoTok) (acc : DTime) (cs : List Char)
    (n : Nat) (r : List Char) (h : parse4 cs = some (n, r)) :
    parseToks (.y4 :: tl) acc cs = parseToks tl { acc with year := n } r := by
  rw [parseToks, h]

theorem parseToks_y4_none (tl : List GoTok) (acc : DTime) (cs : List Char)
    (h : parse4 cs = none) : parseToks (.y4 :: tl) acc cs = none := by
  rw [parseToks, h]

theorem parseToks_mo2_some (tl : List GoTok) (acc : DTime) (cs : List Char)
    (n : Nat) (r : List Char) (h : parse2 cs = some (n, r)) :
    parseToks (.mo2 :: tl) acc cs = parseToks tl { acc with month := n } r := by
  rw [parseToks, h]

theorem parseToks_mo2_none (tl : List GoTok) (acc : DTime) (cs : List Char)
    (h : parse2 cs = none) : parseToks (.mo2 :: tl) acc cs = none := by
  rw [parseToks, h]

theorem parseToks_d2_some (tl : List GoTok) (acc : DTime) (cs : List Char)
    (n : Nat) (r : List Char) (h : parse2 cs = some (n, r)) :
    parseToks (.d2 :: tl) acc cs = parseToks tl { acc with day := n } r := by
  rw [parseToks, h]

theorem parseToks_d2_none (tl : List GoTok) (acc : DTime) (cs : List Char)
    (h : parse2 cs = none) : parseToks (.d2 :: tl) acc cs = none := by
  rw [parseToks, h]

theorem parseToks_h2_some (tl : List GoTok) (acc : DTime) (cs : List Char)
    (n : Nat) (r : List Char) (h : parse2 cs = some (n, r)) :
    parseToks (.h2 :: tl) acc cs = parseToks tl { acc with hour := n } r := by
  rw [parseToks, h]

theorem parseToks_h2_none (tl : List GoTok) (acc : DTime) (cs : List Char)
    (h : parse2 cs = none) : parseToks (.h2 :: tl) acc cs = none := by
  rw [parseToks, h]

theorem parseToks_mi2_some (tl : List GoTok) (acc : DTime) (cs : List Char)
    (n : Nat) (r : List Char) (h : parse2 cs = some (n, r)) :
    parseToks (.mi2 :: tl) acc cs = parseToks tl { acc with minute := n } r := by
  rw [parseToks, h]

theorem parseToks_mi2_none (tl : List GoTok) (acc : DTime) (cs : List Char)
    (h : parse2 cs = none) : parseToks (.mi2 :: tl) acc cs = none := by
  rw [parseToks, h]

theorem parseToks_s2_some (tl : List GoTok) (acc : DTime) (cs : List Char)
    (n : Nat) (r : List Char) (h : parse2 cs = some (n, r)) :
    parseToks (.s2 :: tl) acc cs = parseToks tl { acc with second := n } r := by
  rw [parseToks, h]

theorem parseToks_s2_none (tl : List GoTok) (acc : DTime) (cs : List Char)
    (h : parse2 cs = none) : parseToks (.s2 :: tl) acc cs = none := by
  rw [parseToks, h]

theorem parseToks_lit_eq (tl : List GoTok) (acc : DTime) (c : Char) (r : List Char) :
    parseToks (.lit c :: tl) acc (c :: r) = parseToks tl acc r := by
  rw [parseToks]
  simp

theorem mkString_ne_empty (l : List Char) (h : l ≠ []) : (⟨l⟩ : String) ≠ "" := by
  intro he
  exact h (by simpa using congrArg String.data he)

/-! ### Date mode -/

theorem parseDateInternal_sound (cs : List Char) (t : DTime)
    (h : parseToks [.y4, .mo2, .d2] dtZero cs = some (t, [])) :
    t.hour = 0 ∧ t.minute = 0 ∧ t.second = 0 ∧
    t.year < 10000 ∧ t.month < 100 ∧ t.day < 100 ∧
    cs = padInt t.year 4 ++ (padInt t.month 2 ++ padInt t.day 2) := by
  cases h4 : parse4 cs with
  | none =>
    rw [parseToks_y4_none _ _ _ h4] at h
    exact Option.noConfusion h
  | some p =>
    obtain ⟨y, r1⟩ := p
    rw [parseToks_y4_some _ _ _ _ _ h4] at h
    cases h5 : parse2 r1 with
    | none =>
      rw [parseToks_mo2_none _ _ _ h5] at h
      exact Option.noConfusion h
    | some q =>
      obtain ⟨mo, r2⟩ := q
      rw [parseToks_mo2_some _ _ _ _ _ h5] at h
      cases h6 : parse2 r2 with
      | none =>
        rw [parseToks_d2_none _ _ _ h6] at h
        exact Option.noConfusion h
      | some w =>
        obtain ⟨d, r3⟩ := w
        rw [parseToks_d2_some _ _ _ _ _ h6, parseToks_nil] at h
        simp only [Option.some.injEq, Prod.mk.injEq] at h
        obtain ⟨ht, hr3⟩ := h
        subst hr3
        obtain ⟨hy, hcs⟩ := parse4_sound cs y r1 h4
        obtain ⟨hm, hr1⟩ := parse2_sound r1 mo r2 h5
        obtain ⟨hd, hr2⟩ := parse2_sound r2 d [] h6
        subst ht
        refine ⟨rfl, rfl, rfl, hy, hm, hd, ?_⟩
        rw [hcs, hr1, hr2]
        simp

theorem parseDateDisplay_complete (y mo d : Nat) (hy : y < 10000) (hm : mo < 100)
    (hd : d < 100) :
    parseToks [.d2, .lit '.', .mo2, .lit '.', .y4] dtZero
      (padInt d 2 ++ ('.' :: (padInt mo 2 ++ ('.' :: padInt y 4)))) =
      some (⟨y, mo, d, 0, 0, 0⟩, []) := by
  have h4 : parse4 (padInt y 4) = some (y, []) := by
    have := parse4_complete y [] hy
    rwa [List.append_nil] at this
  rw [parseToks_d2_some _ _ _ _ _ (parse2_complete d _ hd), parseToks_lit_eq,
    parseToks_mo2_some _ _ _ _ _ (parse2_complete mo _ hm), parseToks_lit_eq,
    parseToks_y4_some _ _ _ _ _ h4, parseToks_nil]
  rfl

theorem goTimeFormat_dateInternal (t : DTime) :
    goTimeFormat "20060102" t =
      ⟨padInt t.year 4 ++ (padInt t.month 2 ++ padInt t.day 2)⟩ := by
  have hl : layoutToks "20060102".data = [.y4, .mo2, .d2] := by decide
  rw [goTimeFormat, hl]
  simp [fmtTok]

theorem goTimeFormat_dateDisplay (t : DTime) :
    goTimeFormat "02.01.2006" t =
      ⟨padInt t.day 2 ++ ('.' :: (padInt t.month 2 ++ ('.' :: padInt t.year 4)))⟩ := by
  have hl : layoutToks "02.01.2006".data = [.d2, .lit '.', .mo2, .lit '.', .y4] := by decide
  rw [goTimeFormat, hl]
  simp [fmtTok]

theorem fdt_date_user (x : String) (hx : x ≠ "") :
    FormatDateTime defaultFmts x TypeDate ToUserFormat =
      match goTimeParse "20060102" x with
      | none => .error ()
      | some t => .ok (goTimeFormat "02.01.2006" t) := by
  rw [FormatDateTime, if_neg (by decide), if_neg hx]
  rfl

theorem fdt_date_internal (x : String) (hx : x ≠ "") :
    FormatDateTime defaultFmts x TypeDate ToInternalFormat =
      match goTimeParse "02.01.2006" x with
      | none => .error ()
      | some t => .ok (goTimeFormat "20060102" t) := by
  rw [FormatDateTime, if_neg (by decide), if_neg hx]
  rfl

theorem roundtrip_date (x d : String) (hx : x ≠ "")
    (h : FormatDateTime defaultFmts x TypeDate ToUserFormat = .ok d) :
    FormatDateTime defaultFmts d TypeDate ToInternalFormat = .ok x := by
  rw [fdt_date_user x hx] at h
  cases hgp : goTimeParse "20060102" x with
  | none =>
    rw [hgp] at h
    exact Except.noConfusion h
  | some t =>
    rw [hgp] at h
    have hd' : d = goTimeFormat "02.01.2006" t := by
      have : Except.ok (ε := Unit) (goTimeFormat "02.01.2006" t) = .ok d := h
      injection this with hthis
      exact hthis.symm
    -- dissect the canonical parse
    have hl : layoutToks "20060102".data = [GoTok.y4, .mo2, .d2] := by decide
    rw [goTimeParse, hl] at hgp
    split at hgp
    · rename_i t' hpt
      by_cases hv : validDT t'
      · rw [if_pos hv] at hgp
        injection hgp with hgp
        subst hgp
        obtain ⟨hh, hmi, hsec, hy, hm, hdd, hxdecomp⟩ := parseDateInternal_sound x.data t' hpt
        have hteq : (⟨t'.year, t'.month, t'.day, 0, 0, 0⟩ : DTime) = t' := by
          cases t'
          simp_all
        have hfmt : d = ⟨padInt t'.day 2 ++ ('.' :: (padInt t'.month 2 ++ ('.' :: padInt t'.year 4)))⟩ := by
          rw [hd', goTimeFormat_dateDisplay]
        have hdne : d ≠ "" := by
          rw [hfmt]
          apply mkString_ne_empty
          intro hc
          rcases List.append_eq_nil.1 hc with ⟨h1, _⟩
          exact padInt_ne_nil _ _ h1
        rw [fdt_date_internal d hdne]
        have hgp2 : goTimeParse "02.01.2006" d = some t' := by
          have hl2 : layoutToks "02.01.2006".data = [GoTok.d2, .lit '.', .mo2, .lit '.', .y4] := by
            decide
          rw [goTimeParse, hl2, hfmt]
          show (match parseToks [GoTok.d2, .lit '.', .mo2, .lit '.', .y4] dtZero
              (padInt t'.day 2 ++ ('.' :: (padInt t'.month 2 ++ ('.' :: padInt t'.year 4)))) with
            | some (u, []) => if validDT u then some u else none
            | _ => none) = some t'
          rw [parseDateDisplay_complete t'.year t'.month t'.day hy hm hdd]
          show (if validDT ⟨t'.year, t'.month, t'.day, 0, 0, 0⟩ then
              some (⟨t'.year, t'.month, t'.day, 0, 0, 0⟩ : DTime) else none) = some t'
          rw [hteq, if_pos hv]
        rw [hgp2]
        show Except.ok (goTimeFormat "20060102" t') = .ok x
        rw [goTimeFormat_dateInternal]
        exact congrArg Except.ok (string_eq_of_data x _ hxdecomp).symm
      · rw [if_neg hv] at hgp
        exact Option.noConfusion hgp
    · exact Option.noConfusion hgp

/-! ### Time mode -/

theorem parseTimeInternal_sound (cs : List Char) (t : DTime)
    (h : parseToks [.h2, .mi2, .s2] dtZero cs = some (t, [])) :
    t.year = 0 ∧ t.month = 1 ∧ t.day = 1 ∧
    t.hour < 100 ∧ t.minute < 100 ∧ t.second < 100 ∧
    cs = padInt t.hour 2 ++ (padInt t.minute 2 ++ padInt t.second 2) := by
  cases h4 : parse2 cs with
  | none =>
    rw [parseToks_h2_none _ _ _ h4] at h
    exact Option.noConfusion h
  | some p =>
    obtain ⟨hh, r1⟩ := p
    rw [parseToks_h2_some _ _ _ _ _ h4] at h
    cases h5 : parse2 r1 with
    | none =>
      rw [parseToks_mi2_none _ _ _ h5] at h
      exact Option.noConfusion h
    | some q =>
      obtain ⟨mi, r2⟩ := q
      rw [parseToks_mi2_some _ _ _ _ _ h5] at h
      cases h6 : parse2 r2 with
      | none =>
        rw [parseToks_s2_none _ _ _ h6] at h
        exact Option.noConfusion h
      | some w =>
        obtain ⟨se, r3⟩ := w
        rw [parseToks_s2_some _ _ _ _ _ h6, parseToks_nil] at h
        simp only [Option.some.injEq, Prod.mk.injEq] at h
        obtain ⟨ht, hr3⟩ := h
        subst hr3
        obtain ⟨hbh, hcs⟩ := parse2_sound cs hh r1 h4
        obtain ⟨hbm, hr1⟩ := parse2_sound r1 mi r2 h5
        obtain ⟨hbs, hr2⟩ := parse2_sound r2 se [] h6
        subst ht
        refine ⟨rfl, rfl, rfl, hbh, hbm, hbs, ?_⟩
        rw [hcs, hr1, hr2]
        simp

theorem parseTimeDisplay_complete (hh mi se : Nat) (h1 : hh < 100) (h2 : mi < 100)
    (h3 : se < 100) :
    parseToks [.h2, .lit ':', .mi2, .lit ':', .s2] dtZero
      (padInt hh 2 ++ (':' :: (padInt mi 2 ++ (':' :: padInt se 2)))) =
      some (⟨0, 1, 1, hh, mi, se⟩, []) := by
  have h6 : parse2 (padInt se 2) = some (se, []) := by
    have := parse2_complete se [] h3
    rwa [List.append_nil] at this
  rw [parseToks_h2_some _ _ _ _ _ (parse2_complete hh _ h1), parseToks_lit_eq,
    parseToks_mi2_some _ _ _ _ _ (parse2_complete mi _ h2), parseToks_lit_eq,
    parseToks_s2_some _ _ _ _ _ h6, parseToks_nil]
  rfl

theorem goTimeFormat_timeInternal (t : DTime) :
    goTimeFormat "150405" t =
      ⟨padInt t.hour 2 ++ (padInt t.minute 2 ++ padInt t.second 2)⟩ := by
  have hl : layoutToks "150405".data = [.h2, .mi2, .s2] := by decide
  rw [goTimeFormat, hl]
  simp [fmtTok]

theorem goTimeFormat_timeDisplay (t : DTime) :
    goTimeFormat "15:04:05" t =
      ⟨padInt t.hour 2 ++ (':' :: (padInt t.minute 2 ++ (':' :: padInt t.second 2)))⟩ := by
  have hl : layoutToks "15:04:05".data = [.h2, .lit ':', .mi2, .lit ':', .s2] := by decide
  rw [goTimeFormat, hl]
  simp [fmtTok]

theorem fdt_time_user (x : String) (hx : x ≠ "") :
    FormatDateTime defaultFmts x TypeTime ToUserFormat =
      match goTimeParse "150405" x with
      | none => .error ()
      | some t => .ok (goTimeFormat "15:04:05" t) := by
  rw [FormatDateTime, if_neg (by decide), if_neg hx]
  rfl

theorem fdt_time_internal (x : String) (hx : x ≠ "") :
    FormatDateTime defaultFmts x TypeTime ToInternalFormat =
      match goTimeParse "15:04:05" x with
      | none => .error ()
      | some t => .ok (goTimeFormat "150405" t) := by
  rw [FormatDateTime, if_neg (by decide), if_neg hx]
  rfl

theorem roundtrip_time (x d : String) (hx : x ≠ "")
    (h : FormatDateTime defaultFmts x TypeTime ToUserFormat = .ok d) :
    FormatDateTime defaultFmts d TypeTime ToInternalFormat = .ok x := by
  rw [fdt_time_user x hx] at h
  cases hgp : goTimeParse "150405" x with
  | none =>
    rw [hgp] at h
    exact Except.noConfusion h
  | some t =>
    rw [hgp] at h
    have hd' : d = goTimeFormat "15:04:05" t := by
      have : Except.ok (ε := Unit) (goTimeFormat "15:04:05" t) = .ok d := h
      injection this with hthis
      exact hthis.symm
    have hl : layoutToks "150405".data = [GoTok.h2, .mi2, .s2] := by decide
    rw [goTimeParse, hl] at hgp
    split at hgp
    · rename_i t' hpt
      by_cases hv : validDT t'
      · rw [if_pos hv] at hgp
        injection hgp with hgp
        subst hgp
        obtain ⟨hy0, hm1, hd1, hbh, hbm, hbs, hxdecomp⟩ := parseTimeInternal_sound x.data t' hpt
        have hteq : (⟨0, 1, 1, t'.hour, t'.minute, t'.second⟩ : DTime) = t' := by
          cases t'
          simp_all
        have hfmt : d = ⟨padInt t'.hour 2 ++ (':' :: (padInt t'.minute 2 ++ (':' :: padInt t'.second 2)))⟩ := by
          rw [hd', goTimeFormat_timeDisplay]
        have hdne : d ≠ "" := by
          rw [hfmt]
          apply mkString_ne_empty
          intro hc
          rcases List.append_eq_nil.1 hc with ⟨h1, _⟩
          exact padInt_ne_nil _ _ h1
        rw [fdt_time_internal d hdne]
        have hgp2 : goTimeParse "15:04:05" d = some t' := by
          have hl2 : layoutToks "15:04:05".data = [GoTok.h2, .lit ':', .mi2, .lit ':', .s2] := by
            decide
          rw [goTimeParse, hl2, hfmt]
          show (match parseToks [GoTok.h2, .lit ':', .mi2, .lit ':', .s2] dtZero
              (padInt t'.hour 2 ++ (':' :: (padInt t'.minute 2 ++ (':' :: padInt t'.second 2)))) with
            | some (u, []) => if validDT u then some u else none
            | _ => none) = some t'
          rw [parseTimeDisplay_complete t'.hour t'.minute t'.second hbh hbm hbs]
          show (if validDT ⟨0, 1, 1, t'.hour, t'.minute, t'.second⟩ then
              some (⟨0, 1, 1, t'.hour, t'.minute, t'.second⟩ : DTime) else none) = some t'
          rw [hteq, if_pos hv]
        rw [hgp2]
        show Except.ok (goTimeFormat "150405" t') = .ok x
        rw [goTimeFormat_timeInternal]
        exact congrArg Except.ok (string_eq_of_data x _ hxdecomp).symm
      · rw [if_neg hv] at hgp
        exact Option.noConfusion hgp
    · exact Option.noConfusion hgp

/-! ### DateTime mode -/

theorem parseDateTimeInternal_sound (cs : List Char) (t : DTime)
    (h : parseToks [.y4, .mo2, .d2, .h2, .mi2, .s2] dtZero cs = some (t, [])) :
    t.year < 10000 ∧ t.month < 100 ∧ t.day < 100 ∧
    t.hour < 100 ∧ t.minute < 100 ∧ t.second < 100 ∧
    cs = padInt t.year 4 ++ (padInt t.month 2 ++ (padInt t.day 2 ++
      (padInt t.hour 2 ++ (padInt t.minute 2 ++ padInt t.second 2)))) := by
  cases h1 : parse4 cs with
  | none =>
    rw [parseToks_y4_none _ _ _ h1] at h
    exact Option.noConfusion h
  | some p1 =>
    obtain ⟨y, r1⟩ := p1
    rw [parseToks_y4_some _ _ _ _ _ h1] at h
    cases h2 : parse2 r1 with
    | none =>
      rw [parseToks_mo2_none _ _ _ h2] at h
      exact Option.noConfusion h
    | some p2 =>
      obtain ⟨mo, r2⟩ := p2
      rw [parseToks_mo2_some _ _ _ _ _ h2] at h
      cases h3 : parse2 r2 with
      | none =>
        rw [parseToks_d2_none _ _ _ h3] at h
        exact Option.noConfusion h
      | some p3 =>
        obtain ⟨d, r3⟩ := p3
        rw [parseToks_d2_some _ _ _ _ _ h3] at h
        cases h4 : parse2 r3 with
        | none =>
          rw [parseToks_h2_none _ _ _ h4] at h
          exact Option.noConfusion h
        | some p4 =>
          obtain ⟨hh, r4⟩ := p4
          rw [parseToks_h2_some _ _ _ _ _ h4] at h
          cases h5 : parse2 r4 with
          | none =>
            rw [parseToks_mi2_none _ _ _ h5] at h
            exact Option.noConfusion h
          | some p5 =>
            obtain ⟨mi, r5⟩ := p5
            rw [parseToks_mi2_some _ _ _ _ _ h5] at h
            cases h6 : parse2 r5 with
            | none =>
              rw [parseToks_s2_none _ _ _ h6] at h
              exact Option.noConfusion h
            | some p6 =>
              obtain ⟨se, r6⟩ := p6
              rw [parseToks_s2_some _ _ _ _ _ h6, parseToks_nil] at h
              simp only [Option.some.injEq, Prod.mk.injEq] at h
              obtain ⟨ht, hr6⟩ := h
              subst hr6
              obtain ⟨b1, e1⟩ := parse4_sound cs y r1 h1
              obtain ⟨b2, e2⟩ := parse2_sound r1 mo r2 h2
              obtain ⟨b3, e3⟩ := parse2_sound r2 d r3 h3
              obtain ⟨b4, e4⟩ := parse2_sound r3 hh r4 h4
              obtain ⟨b5, e5⟩ := parse2_sound r4 mi r5 h5
              obtain ⟨b6, e6⟩ := parse2_sound r5 se [] h6
              subst ht
              refine ⟨b1, b2, b3, b4, b5, b6, ?_⟩
              rw [e1, e2, e3, e4, e5, e6]
              simp

theorem parseDateTimeDisplay_complete (y mo d hh mi se : Nat) (hy : y < 10000)
    (hm : mo < 100) (hd : d < 100) (hb4 : hh < 100) (hb5 : mi < 100) (hb6 : se < 100) :
    parseToks [.d2, .lit '.', .mo2, .lit '.', .y4, .lit ' ', .h2, .lit ':', .mi2, .lit ':', .s2]
      dtZero
      (padInt d 2 ++ ('.' :: (padInt mo 2 ++ ('.' :: (padInt y 4 ++ (' ' ::
        (padInt hh 2 ++ (':' :: (padInt mi 2 ++ (':' :: padInt se 2)))))))))) =
      some (⟨y, mo, d, hh, mi, se⟩, []) := by
  have h6 : parse2 (padInt se 2) = some (se, []) := by
    have := parse2_complete se [] hb6
    rwa [List.append_nil] at this
  rw [parseToks_d2_some _ _ _ _ _ (parse2_complete d _ hd), parseToks_lit_eq,
    parseToks_mo2_some _ _ _ _ _ (parse2_complete mo _ hm), parseToks_lit_eq,
    parseToks_y4_some _ _ _ _ _ (parse4_complete y _ hy), parseToks_lit_eq,
    parseToks_h2_some _ _ _ _ _ (parse2_complete hh _ hb4), parseToks_lit_eq,
    parseToks_mi2_some _ _ _ _ _ (parse2_complete mi _ hb5), parseToks_lit_eq,
    parseToks_s2_some _ _ _ _ _ h6, parseToks_nil]

theorem goTimeFormat_dateTimeInternal (t : DTime) :
    goTimeFormat "20060102150405" t =
      ⟨padInt t.year 4 ++ (padInt t.month 2 ++ (padInt t.day 2 ++
        (padInt t.hour 2 ++ (padInt t.minute 2 ++ padInt t.second 2))))⟩ := by
  have hl : layoutToks "20060102150405".data = [.y4, .mo2, .d2, .h2, .mi2, .s2] := by decide
  rw [goTimeFormat, hl]
  simp [fmtTok]

theorem goTimeFormat_dateTimeDisplay (t : DTime) :
    goTimeFormat "02.01.2006 15:04:05" t =
      ⟨padInt t.day 2 ++ ('.' :: (padInt t.month 2 ++ ('.' :: (padInt t.year 4 ++ (' ' ::
        (padInt t.hour 2 ++ (':' :: (padInt t.minute 2 ++ (':' :: padInt t.second 2)))))))))⟩ := by
  have hl : layoutToks "02.01.2006 15:04:05".data =
      [.d2, .lit '.', .mo2, .lit '.', .y4, .lit ' ', .h2, .lit ':', .mi2, .lit ':', .s2] := by
    decide
  rw [goTimeFormat, hl]
  simp [fmtTok]

theorem fdt_dateTime_user (x : String) (hx : x ≠ "") :
    FormatDateTime defaultFmts x TypeDateTime ToUserFormat =
      match goTimeParse "20060102150405" x with
      | none => .error ()
      | some t => .ok (goTimeFormat "02.01.2006 15:04:05" t) := by
  rw [FormatDateTime, if_neg (by decide), if_neg hx]
  rfl

theorem fdt_dateTime_internal (x : String) (hx : x ≠ "") :
    FormatDateTime defaultFmts x TypeDateTime ToInternalFormat =
      match goTimeParse "02.01.2006 15:04:05" x with
      | none => .error ()
      | some t => .ok (goTimeFormat "20060102150405" t) := by
  rw [FormatDateTime, if_neg (by decide), if_neg hx]
  rfl

theorem roundtrip_dateTime (x d : String) (hx : x ≠ "")
    (h : FormatDateTime defaultFmts x TypeDateTime ToUserFormat = .ok d) :
    FormatDateTime defaultFmts d TypeDateTime ToInternalFormat = .ok x := by
  rw [fdt_dateTime_user x hx] at h
  cases hgp : goTimeParse "20060102150405" x with
  | none =>
    rw [hgp] at h
    exact Except.noConfusion h
  | some t =>
    rw [hgp] at h
    have hd' : d = goTimeFormat "02.01.2006 15:04:05" t := by
      have : Except.ok (ε := Unit) (goTimeFormat "02.01.2006 15:04:05" t) = .ok d := h
      injection this with hthis
      exact hthis.symm
    have hl : layoutToks "20060102150405".data = [GoTok.y4, .mo2, .d2, .h2, .mi2, .s2] := by
      decide
    rw [goTimeParse, hl] at hgp
    split at hgp
    · rename_i t' hpt
      by_cases hv : validDT t'
      · rw [if_pos hv] at hgp
        injection hgp with hgp
        subst hgp
        obtain ⟨b1, b2, b3, b4, b5, b6, hxdecomp⟩ := parseDateTimeInternal_sound x.data t' hpt
        have hteq : (⟨t'.year, t'.month, t'.day, t'.hour, t'.minute, t'.second⟩ : DTime)
            = t' := by
          cases t'
          rfl
        have hfmt : d = ⟨padInt t'.day 2 ++ ('.' :: (padInt t'.month 2 ++ ('.' ::
            (padInt t'.year 4 ++ (' ' :: (padInt t'.hour 2 ++ (':' ::
              (padInt t'.minute 2 ++ (':' :: padInt t'.second 2)))))))))⟩ := by
          rw [hd', goTimeFormat_dateTimeDisplay]
        have hdne : d ≠ "" := by
          rw [hfmt]
          apply mkString_ne_empty
          intro hc
          rcases List.append_eq_nil.1 hc with ⟨h1, _⟩
          exact padInt_ne_nil _ _ h1
        rw [fdt_dateTime_internal d hdne]
        have hgp2 : goTimeParse "02.01.2006 15:04:05" d = some t' := by
          have hl2 : layoutToks "02.01.2006 15:04:05".data =
              [GoTok.d2, .lit '.', .mo2, .lit '.', .y4, .lit ' ', .h2, .lit ':', .mi2,
               .lit ':', .s2] := by decide
          rw [goTimeParse, hl2, hfmt]
          show (match parseToks
              [GoTok.d2, .lit '.', .mo2, .lit '.', .y4, .lit ' ', .h2, .lit ':', .mi2,
               .lit ':', .s2] dtZero
              (padInt t'.day 2 ++ ('.' :: (padInt t'.month 2 ++ ('.' ::
                (padInt t'.year 4 ++ (' ' :: (padInt t'.hour 2 ++ (':' ::
                  (padInt t'.minute 2 ++ (':' :: padInt t'.second 2)))))))))) with
            | some (u, []) => if validDT u then some u else none
            | _ => none) = some t'
          rw [parseDateTimeDisplay_complete t'.year t'.month t'.day t'.hour t'.minute
            t'.second b1 b2 b3 b4 b5 b6]
          show (if validDT ⟨t'.year, t'.month, t'.day, t'.hour, t'.minute, t'.second⟩ then
              some (⟨t'.year, t'.month, t'.day, t'.hour, t'.minute, t'.second⟩ : DTime)
            else none) = some t'
          rw [hteq, if_pos hv]
        rw [hgp2]
        show Except.ok (goTimeFormat "20060102150405" t') = .ok x
        rw [goTimeFormat_dateTimeInternal]
        exact congrArg Except.ok (string_eq_of_data x _ hxdecomp).symm
      · rw [if_neg hv] at hgp
        exact Option.noConfusion hgp
    · exact Option.noConfusion hgp

end Timefunc

/-! ## C6: the claim itself -/

/-- C6 counterexample: the claim quantifies over all valid active display
templates, but under the valid Date template `dd.mm.yy` (the `yy` token is
part of the documented template grammar and `customTemplateToGoTemplate`
accepts it) the round trip is not the identity: the canonical date
`18500615` displays as `15.06.50` and converts back to `20500615`, because
Go's two-digit-year parsing maps `50` into the 1969–2068 window. -/
theorem C6_counterexample :
    Timefunc.customTemplateToGoTemplate "dd.mm.yy" TypeDate = .ok "02.01.06" ∧
    Timefunc.FormatDateTime ⟨"dd.mm.yy", "hh:ii:ss", "dd.mm.yyyy hh:ii:ss"⟩ "18500615"
      TypeDate Timefunc.ToUserFormat = .ok "15.06.50" ∧
    Timefunc.FormatDateTime ⟨"dd.mm.yy", "hh:ii:ss", "dd.mm.yyyy hh:ii:ss"⟩ "15.06.50"
      TypeDate Timefunc.ToInternalFormat = .ok "20500615" ∧
    ("20500615" : String) ≠ "18500615" := by
  refine ⟨by decide, by decide, by decide, by decide⟩

/-- C6 (amended): under the default active display templates
(`dd.mm.yyyy`, `hh:ii:ss`, `dd.mm.yyyy hh:ii:ss` — all with a four-digit
year), for each mode and every non-empty canonical value that converts
successfully to display form, converting the result back with
`FormatDateTime (·, mode, ToInternalFormat)` yields the original value;
for templates with the two-digit `yy` year token the identity holds only
for years 1969–2068 (see the counterexample). -/
theorem C6_roundtrip_default_templates :
    ∀ (mode x d : String),
      (mode = TypeDate ∨ mode = TypeTime ∨ mode = TypeDateTime) →
      x ≠ "" →
      Timefunc.FormatDateTime Timefunc.defaultFmts x mode Timefunc.ToUserFormat = .ok d →
      Timefunc.FormatDateTime Timefunc.defaultFmts d mode Timefunc.ToInternalFormat = .ok x := by
  rintro mode x d (rfl | rfl | rfl) hx h
  · exact Timefunc.roundtrip_date x d hx h
  · exact Timefunc.roundtrip_time x d hx h
  · exact Timefunc.roundtrip_dateTime x d hx h

/-- C6 witness: concrete round trips through the default templates in all
three modes. -/
theorem C6_witness :
    Timefunc.FormatDateTime Timefunc.defaultFmts "15.06.2024" TypeDate
      Timefunc.ToInternalFormat = .ok "20240615" ∧
    Timefunc.FormatDateTime Timefunc.defaultFmts "23:59:07" TypeTime
      Timefunc.ToInternalFormat = .ok "235907" ∧
    Timefunc.FormatDateTime Timefunc.defaultFmts "29.02.2024 23:59:07" TypeDateTime
      Timefunc.ToInternalFormat = .ok "20240229235907" :=
  ⟨C6_roundtrip_default_templates TypeDate "20240615" "15.06.2024" (Or.inl rfl)
    (by decide) (by decide),
   C6_roundtrip_default_templates TypeTime "235907" "23:59:07" (Or.inr (Or.inl rfl))
    (by decide) (by decide),
   C6_roundtrip_default_templates TypeDateTime "20240229235907" "29.02.2024 23:59:07"
    (Or.inr (Or.inr rfl)) (by decide) (by decide)⟩

end Gotulua

